import Mathlib

/-!
Shallow embedding of the orchestration core of the aws-execution-engine
repository, together with theorems checking the natural-language
specification against it.

The embedding follows the Python sources:
  * `src/common/models.py`        — status constants, `Order`, `Job`
  * `src/orchestrator/evaluate.py`— `evaluate_orders`
  * `src/orchestrator/read_state.py`, `finalize.py`, `handler.py`
  * `src/common/dynamodb.py`      — `acquire_lock`, `release_lock`
  * `src/common/bundler.py`       — `OrderBundler.build_env`
  * `src/watchdog_check/handler.py`
  * `src/init_job/validate.py`, `insert.py`

Python dicts are modelled as function maps `String → Option _` (a faithful
model of lookup, insertion-with-overwrite and key-membership), DynamoDB
tables restricted to one run as lists of records, and the cooperating
processes (controller, watchdog, worker back-end) as a deterministic step
function over an explicit system state driven by a list of actions.
-/

namespace AwsExe

/-- Order status constant (src/common/models.py). -/
def QUEUED : String := "queued"

/-- Order status constant (src/common/models.py). -/
def RUNNING : String := "running"

/-- Order status constant (src/common/models.py). -/
def SUCCEEDED : String := "succeeded"

/-- Order status constant (src/common/models.py). -/
def FAILED : String := "failed"

/-- Order status constant (src/common/models.py). -/
def TIMED_OUT : String := "timed_out"

/-- Reserved order name for job-level events (src/common/models.py). -/
def JOB_ORDER_NAME : String := "_job"

/-- `TERMINAL_STATUSES` (src/orchestrator/evaluate.py, read_state.py, finalize.py). -/
def TERMINAL_STATUSES : List String := [SUCCEEDED, FAILED, TIMED_OUT]

/-- `FAILED_STATUSES` (src/orchestrator/evaluate.py). -/
def FAILED_STATUSES : List String := [FAILED, TIMED_OUT]

/-- The five legal statuses of an order record (spec §3, src/common/models.py). -/
def ALL_STATUSES : List String := [QUEUED, RUNNING, SUCCEEDED, FAILED, TIMED_OUT]

/-- A durable order record of the `orders` table, restricted to the fields the
orchestrator reads and writes (src/init_job/insert.py writes all of them, so
they are total here; DynamoDB `get` defaults never fire on these records). -/
structure OrderRec where
  order_num : String
  order_name : String
  queue_id : String
  status : String
  dependencies : List String
  must_succeed : Bool
  trace_id : String
  flow_id : String
  timeout : Nat
  failure_reason : Option String
  log : Option String
  deriving Repr, DecidableEq

/-- A finite map modelling a Python `dict` keyed by strings. -/
def SMap (α : Type) : Type := String → Option α

/-- The empty Python dict. -/
def SMap.empty {α : Type} : SMap α := fun _ => none

/-- Python `d[k] = v` — insertion with overwrite. -/
def SMap.insert {α : Type} (m : SMap α) (k : String) (v : α) : SMap α :=
  fun k' => if k' = k then some v else m k'

/-- Python `d.update(other)` — keys of `other` win on collision. -/
def SMap.update {α : Type} (m other : SMap α) : SMap α :=
  fun k => (other k).orElse (fun _ => m k)

/-- The `status_by_queue_id` lookup built by the first loop of
`evaluate_orders` (src/orchestrator/evaluate.py lines 17-21): each order
inserts its status under its `queue_id`, later orders overwriting earlier
ones. -/
def statusByQueueId (orders : List OrderRec) : SMap String :=
  orders.foldl (fun m o => m.insert o.queue_id o.status) SMap.empty

/-- The three flags computed by the dependency loop of `evaluate_orders`
(src/orchestrator/evaluate.py lines 37-55). -/
structure DepFlags where
  all_succeeded : Bool
  any_dep_running : Bool
  any_dep_failed : Bool
  deriving Repr, DecidableEq

/-- One iteration of the dependency loop of `evaluate_orders`.  An unknown
`dep_id` resolves to `QUEUED`; the final `else` branch of the Python loop
sets the same flags as the `(QUEUED, "running")` branch, so the two are a
single branch here. -/
def depStep (statusOf : SMap String) (f : DepFlags) (dep_id : String) : DepFlags :=
  let dep_status := (statusOf dep_id).getD QUEUED
  if dep_status = SUCCEEDED then f
  else if dep_status ∈ FAILED_STATUSES then
    { f with any_dep_failed := true, all_succeeded := false }
  else
    { f with any_dep_running := true, all_succeeded := false }

/-- The dependency loop of `evaluate_orders` over a whole dependency list. -/
def depFlags (statusOf : SMap String) (deps : List String) : DepFlags :=
  deps.foldl (depStep statusOf) ⟨true, false, false⟩

/-- Classification of a single queued order, following exactly the branch
structure of `evaluate_orders` (src/orchestrator/evaluate.py lines 31-65). -/
inductive DagClass where
  | ready
  | cascade_failed
  | waiting
  deriving Repr, DecidableEq

/-- The branch cascade of `evaluate_orders` for one queued order. -/
def codeClassify (statusOf : SMap String) (o : OrderRec) : DagClass :=
  if o.dependencies = [] then .ready
  else
    let f := depFlags statusOf o.dependencies
    if f.all_succeeded then .ready
    else if f.any_dep_failed && o.must_succeed then .cascade_failed
    else if f.any_dep_running || !f.any_dep_failed then .waiting
    else .ready

/-- The loop body of `evaluate_orders`: skip non-queued orders, append a
queued order to the result list its branch selects. -/
def evalStep (statusOf : SMap String)
    (acc : List OrderRec × List OrderRec × List OrderRec) (o : OrderRec) :
    List OrderRec × List OrderRec × List OrderRec :=
  if o.status ≠ QUEUED then acc
  else
    match codeClassify statusOf o with
    | .ready => (acc.1 ++ [o], acc.2.1, acc.2.2)
    | .cascade_failed => (acc.1, acc.2.1 ++ [o], acc.2.2)
    | .waiting => (acc.1, acc.2.1, acc.2.2 ++ [o])

/-- `evaluate_orders` (src/orchestrator/evaluate.py): classify the queued
orders of a run into `(ready, failed_due_to_deps, still_waiting)`, appending
to the three result lists in input order. -/
def evaluate_orders (orders : List OrderRec) :
    List OrderRec × List OrderRec × List OrderRec :=
  let statusOf := statusByQueueId orders
  orders.foldl (evalStep statusOf) ([], [], [])

/-- `true` iff the order is queued and its branch classification is `cl`. -/
def isClass (statusOf : SMap String) (cl : DagClass) (o : OrderRec) : Bool :=
  decide (o.status = QUEUED) && decide (codeClassify statusOf o = cl)

theorem evaluate_orders_foldl (orders : List OrderRec) (statusOf : SMap String)
    (r c w : List OrderRec) :
    orders.foldl (evalStep statusOf) (r, c, w)
    = (r ++ orders.filter (isClass statusOf .ready),
       c ++ orders.filter (isClass statusOf .cascade_failed),
       w ++ orders.filter (isClass statusOf .waiting)) := by
  induction orders generalizing r c w with
  | nil => simp
  | cons o rest ih =>
    rw [List.foldl_cons]
    by_cases hq : o.status = QUEUED
    · rcases hcl : codeClassify statusOf o with _ | _ | _ <;>
        · rw [show evalStep statusOf (r, c, w) o
                = (match codeClassify statusOf o with
                   | DagClass.ready => (r ++ [o], c, w)
                   | DagClass.cascade_failed => (r, c ++ [o], w)
                   | DagClass.waiting => (r, c, w ++ [o])) by
              simp [evalStep, hq]]
          rw [hcl]
          rw [ih]
          simp [List.filter_cons, isClass, hq, hcl]
    · rw [show evalStep statusOf (r, c, w) o = (r, c, w) by simp [evalStep, hq]]
      rw [ih]
      simp [List.filter_cons, isClass, hq]

/-- `evaluate_orders` is the partition of the queued orders by the branch
classification, in input order. -/
theorem evaluate_orders_eq (orders : List OrderRec) :
    evaluate_orders orders
    = (orders.filter (isClass (statusByQueueId orders) .ready),
       orders.filter (isClass (statusByQueueId orders) .cascade_failed),
       orders.filter (isClass (statusByQueueId orders) .waiting)) := by
  have h := evaluate_orders_foldl orders (statusByQueueId orders) [] [] []
  simpa [evaluate_orders] using h

/-- The status a dependency name resolves to: the status of the order that
owns the `queue_id`, and `queued` when no order in the list matches. -/
def resolvedStatus (statusOf : SMap String) (d : String) : String :=
  (statusOf d).getD QUEUED

/-- Classification of a queued order exactly as the spec words it (§4.4):
no dependencies → ready; all named dependencies succeeded → ready; some
dependency failed/timed_out and `must_succeed` → cascade_failed; some
dependency failed/timed_out, not `must_succeed`, and no dependency still
queued or running → ready; otherwise → waiting.  Unknown `queue_id`s
resolve to `queued`. -/
def specClassify (statusOf : SMap String) (o : OrderRec) : DagClass :=
  let depSt := o.dependencies.map (resolvedStatus statusOf)
  if o.dependencies = [] then .ready
  else if depSt.all (fun s => s == SUCCEEDED) then .ready
  else if depSt.any (fun s => s == FAILED || s == TIMED_OUT) && o.must_succeed then
    .cascade_failed
  else if depSt.any (fun s => s == FAILED || s == TIMED_OUT) && !o.must_succeed
          && !(depSt.any (fun s => s == QUEUED || s == RUNNING)) then
    .ready
  else .waiting

theorem depFlags_foldl (statusOf : SMap String) (deps : List String) (f : DepFlags) :
    deps.foldl (depStep statusOf) f
    = ⟨f.all_succeeded
         && deps.all (fun d => resolvedStatus statusOf d == SUCCEEDED),
       f.any_dep_running
         || deps.any (fun d => !(resolvedStatus statusOf d == SUCCEEDED)
              && !(resolvedStatus statusOf d == FAILED || resolvedStatus statusOf d == TIMED_OUT)),
       f.any_dep_failed
         || deps.any (fun d => resolvedStatus statusOf d == FAILED
              || resolvedStatus statusOf d == TIMED_OUT)⟩ := by
  induction deps generalizing f with
  | nil => simp
  | cons d rest ih =>
    rw [List.foldl_cons, ih]
    simp only [resolvedStatus, List.all_cons, List.any_cons]
    by_cases hs : (statusOf d).getD QUEUED = SUCCEEDED
    · have e1 : ((statusOf d).getD QUEUED == SUCCEEDED) = true := by simp [hs]
      have e2 : ((statusOf d).getD QUEUED == FAILED) = false := by rw [hs]; decide
      have e3 : ((statusOf d).getD QUEUED == TIMED_OUT) = false := by rw [hs]; decide
      have hstep : depStep statusOf f d = f := by simp [depStep, hs]
      rw [hstep]
      simp [e1, e2, e3]
    · by_cases hf : (statusOf d).getD QUEUED = FAILED ∨ (statusOf d).getD QUEUED = TIMED_OUT
      · have hmem : (statusOf d).getD QUEUED ∈ FAILED_STATUSES := by
          rcases hf with h' | h' <;> simp [FAILED_STATUSES, h']
        have e1 : ((statusOf d).getD QUEUED == SUCCEEDED) = false := by simp [hs]
        have e2 : ((statusOf d).getD QUEUED == FAILED
            || (statusOf d).getD QUEUED == TIMED_OUT) = true := by
          rcases hf with h' | h' <;> simp [h']
        have hstep : depStep statusOf f d
            = { f with any_dep_failed := true, all_succeeded := false } := by
          simp [depStep, hs, hmem]
        rw [hstep]
        simp [e1, e2, Bool.or_assoc]
      · push_neg at hf
        have hmem : (statusOf d).getD QUEUED ∉ FAILED_STATUSES := by
          simp [FAILED_STATUSES, hf.1, hf.2]
        have e1 : ((statusOf d).getD QUEUED == SUCCEEDED) = false := by simp [hs]
        have e2 : ((statusOf d).getD QUEUED == FAILED) = false := by simp [hf.1]
        have e3 : ((statusOf d).getD QUEUED == TIMED_OUT) = false := by simp [hf.2]
        have hstep : depStep statusOf f d
            = { f with any_dep_running := true, all_succeeded := false } := by
          simp [depStep, hs, hmem]
        rw [hstep]
        simp [e1, e2, e3, Bool.or_assoc]

theorem statusByQueueId_go_mem (k s : String) (orders : List OrderRec) :
    ∀ m : SMap String,
      (orders.foldl (fun m o => m.insert o.queue_id o.status) m) k = some s →
      (∃ o ∈ orders, s = o.status) ∨ m k = some s := by
  induction orders with
  | nil => intro m h'; exact Or.inr h'
  | cons o rest ih =>
    intro m h'
    rw [List.foldl_cons] at h'
    rcases ih (m.insert o.queue_id o.status) h' with h'' | h''
    · rcases h'' with ⟨o', ho', hs⟩
      exact Or.inl ⟨o', List.mem_cons_of_mem _ ho', hs⟩
    · simp only [SMap.insert] at h''
      by_cases hk : k = o.queue_id
      · rw [if_pos hk] at h''
        exact Or.inl ⟨o, List.mem_cons_self .., by simpa using h''.symm⟩
      · rw [if_neg hk] at h''
        exact Or.inr h''

/-- Every status stored in the `status_by_queue_id` map is the status of some
order of the list. -/
theorem statusByQueueId_mem (orders : List OrderRec) (k s : String)
    (h : statusByQueueId orders k = some s) : ∃ o ∈ orders, s = o.status := by
  rcases statusByQueueId_go_mem k s orders SMap.empty h with h' | h'
  · exact h'
  · simp [SMap.empty] at h'

/-- Under valid record statuses, a dependency that is neither succeeded nor
failed nor timed out is exactly one that is queued or running. -/
theorem inflight_eq_queued_or_running (orders : List OrderRec)
    (h : ∀ o ∈ orders, o.status ∈ ALL_STATUSES) (d : String) :
    (!(resolvedStatus (statusByQueueId orders) d == SUCCEEDED)
      && !(resolvedStatus (statusByQueueId orders) d == FAILED
           || resolvedStatus (statusByQueueId orders) d == TIMED_OUT))
    = (resolvedStatus (statusByQueueId orders) d == QUEUED
       || resolvedStatus (statusByQueueId orders) d == RUNNING) := by
  have hmem : resolvedStatus (statusByQueueId orders) d ∈ ALL_STATUSES := by
    unfold resolvedStatus
    rcases hk : statusByQueueId orders d with _ | s
    · simp [ALL_STATUSES]
    · rcases statusByQueueId_mem orders d s hk with ⟨o, ho, hs⟩
      simpa [hs] using h o ho
  simp only [ALL_STATUSES, List.mem_cons, List.not_mem_nil, or_false] at hmem
  rcases hmem with h' | h' | h' | h' | h' <;>
    simp [h', QUEUED, RUNNING, SUCCEEDED, FAILED, TIMED_OUT]

/-- Under valid record statuses the branch cascade of `evaluate_orders`
computes exactly the spec's classification. -/
theorem codeClassify_eq_specClassify (orders : List OrderRec)
    (h : ∀ o ∈ orders, o.status ∈ ALL_STATUSES) (o : OrderRec) :
    codeClassify (statusByQueueId orders) o = specClassify (statusByQueueId orders) o := by
  set m := statusByQueueId orders with hm
  unfold codeClassify specClassify depFlags
  by_cases hd : o.dependencies = []
  · simp [hd]
  · rw [if_neg hd, if_neg hd, depFlags_foldl]
    have hany : (o.dependencies.any (fun d => !(resolvedStatus m d == SUCCEEDED)
          && !(resolvedStatus m d == FAILED || resolvedStatus m d == TIMED_OUT)))
        = (o.dependencies.any (fun d => resolvedStatus m d == QUEUED
            || resolvedStatus m d == RUNNING)) := by
      induction o.dependencies with
      | nil => simp
      | cons d rest ih' =>
        simp only [List.any_cons, ih', inflight_eq_queued_or_running orders h d]
    simp only [List.all_map, List.any_map, Function.comp_def]
    rw [hany]
    set A := o.dependencies.all (fun d => resolvedStatus m d == SUCCEEDED) with hA
    set Fd := o.dependencies.any
      (fun d => resolvedStatus m d == FAILED || resolvedStatus m d == TIMED_OUT) with hF
    set Rq := o.dependencies.any
      (fun d => resolvedStatus m d == QUEUED || resolvedStatus m d == RUNNING) with hR
    rcases A with _ | _ <;> rcases Fd with _ | _ <;> rcases Rq with _ | _ <;>
      rcases hms : o.must_succeed with _ | _ <;> simp [hms]

/-- **C1.** For every list of order records with legal statuses,
`evaluate_orders` classifies each queued order exactly as the spec
prescribes: no dependencies → ready; all named dependencies succeeded →
ready; some named dependency failed or timed out and `must_succeed` →
cascade_failed; some named dependency failed or timed out, `must_succeed`
false and no other dependency still queued or running → ready; otherwise →
waiting; a dependency `queue_id` matching no order resolves to `queued`. -/
theorem C1_evaluate_orders_follows_spec (orders : List OrderRec)
    (h : ∀ o ∈ orders, o.status ∈ ALL_STATUSES) :
    evaluate_orders orders
    = (orders.filter (fun o => decide (o.status = QUEUED)
         && decide (specClassify (statusByQueueId orders) o = .ready)),
       orders.filter (fun o => decide (o.status = QUEUED)
         && decide (specClassify (statusByQueueId orders) o = .cascade_failed)),
       orders.filter (fun o => decide (o.status = QUEUED)
         && decide (specClassify (statusByQueueId orders) o = .waiting))) := by
  rw [evaluate_orders_eq]
  have hcl : ∀ cl, orders.filter (isClass (statusByQueueId orders) cl)
      = orders.filter (fun o => decide (o.status = QUEUED)
          && decide (specClassify (statusByQueueId orders) o = cl)) := by
    intro cl
    apply List.filter_congr
    intro o _
    simp [isClass, codeClassify_eq_specClassify orders h o]
  rw [hcl, hcl, hcl]

/-- A record with the given key fields and unremarkable metadata. -/
def mkOrd (num st : String) (deps : List String) (ms : Bool) : OrderRec :=
  { order_num := num, order_name := num, queue_id := num, status := st,
    dependencies := deps, must_succeed := ms, trace_id := "t", flow_id := "fl",
    timeout := 300, failure_reason := none, log := none }

/-- A run exercising every branch of the evaluator: a dependency-free queued
order, all-deps-succeeded, cascade, failed-dep-with-must_succeed-false, and
an unknown dependency. -/
def c1Orders : List OrderRec :=
  [mkOrd "0001" SUCCEEDED [] true,
   mkOrd "0002" FAILED [] true,
   mkOrd "0003" QUEUED ["0001"] true,
   mkOrd "0004" QUEUED ["0002"] true,
   mkOrd "0005" QUEUED ["0002"] false,
   mkOrd "0006" QUEUED ["nothing"] true]

theorem C1_witness :
    (∀ o ∈ c1Orders, o.status ∈ ALL_STATUSES) ∧
    evaluate_orders c1Orders
    = (c1Orders.filter (fun o => decide (o.status = QUEUED)
         && decide (specClassify (statusByQueueId c1Orders) o = .ready)),
       c1Orders.filter (fun o => decide (o.status = QUEUED)
         && decide (specClassify (statusByQueueId c1Orders) o = .cascade_failed)),
       c1Orders.filter (fun o => decide (o.status = QUEUED)
         && decide (specClassify (statusByQueueId c1Orders) o = .waiting))) :=
  ⟨by decide, C1_evaluate_orders_follows_spec c1Orders (by decide)⟩

/-- The fold inside `_resolve_job_status` (src/orchestrator/finalize.py
lines 20-30), accumulating `(has_timed_out, has_failed)`. -/
def resolveStep (acc : Bool × Bool) (o : OrderRec) : Bool × Bool :=
  if o.status = TIMED_OUT then (true, acc.2)
  else if o.status = FAILED ∧ o.must_succeed then (acc.1, true)
  else acc

/-- `_resolve_job_status` (src/orchestrator/finalize.py): overall job status
from the order statuses. -/
def resolve_job_status (orders : List OrderRec) : String :=
  let flags := orders.foldl resolveStep (false, false)
  if flags.1 then TIMED_OUT
  else if flags.2 then FAILED
  else SUCCEEDED

/-- The job status as the spec words it: timed_out if any record timed out,
else failed if any `must_succeed` record failed, else succeeded. -/
def spec_job_status (orders : List OrderRec) : String :=
  if orders.any (fun o => o.status == TIMED_OUT) then TIMED_OUT
  else if orders.any (fun o => o.status == FAILED && o.must_succeed) then FAILED
  else SUCCEEDED

theorem resolve_foldl (orders : List OrderRec) (a b : Bool) :
    orders.foldl resolveStep (a, b)
    = (a || orders.any (fun o => o.status == TIMED_OUT),
       b || orders.any (fun o => o.status == FAILED && o.must_succeed)) := by
  induction orders generalizing a b with
  | nil => simp
  | cons o rest ih =>
    rw [List.foldl_cons]
    by_cases ht : o.status = TIMED_OUT
    · have e1 : (o.status == TIMED_OUT) = true := by simp [ht]
      have e2 : (o.status == FAILED) = false := by rw [ht]; decide
      rw [show resolveStep (a, b) o = (true, b) by simp [resolveStep, ht]]
      simp [ih, e1, e2, Bool.or_assoc]
    · by_cases hfm : o.status = FAILED ∧ o.must_succeed
      · have e1 : (o.status == TIMED_OUT) = false := by rw [hfm.1]; decide
        have e2 : (o.status == FAILED && o.must_succeed) = true := by
          simp [hfm.1, hfm.2]
        rw [show resolveStep (a, b) o = (a, true) by
          simp only [resolveStep]; rw [if_neg ht, if_pos hfm]]
        simp [ih, e1, e2, Bool.or_assoc]
      · have e1 : (o.status == TIMED_OUT) = false := by simp [ht]
        have e2 : (o.status == FAILED && o.must_succeed) = false := by
          rcases Decidable.not_and_iff_or_not.mp hfm with h' | h'
          · simp [h']
          · simp [Bool.and_eq_true, h']
        rw [show resolveStep (a, b) o = (a, b) by simp [resolveStep, ht, hfm]]
        simp [ih, e1, e2]

/-- `_resolve_job_status` computes exactly the spec's priority rule. -/
theorem resolve_job_status_eq_spec (orders : List OrderRec) :
    resolve_job_status orders = spec_job_status orders := by
  unfold resolve_job_status spec_job_status
  rw [resolve_foldl]
  simp

/-- **C4.** When every order record is terminal, the finalized job status is
timed_out if any record timed out, else failed if any `must_succeed = true`
record failed, else succeeded — in particular a run whose only non-succeeded
records are failed orders with `must_succeed = false` finalizes succeeded. -/
theorem C4_resolve_job_status_follows_spec (orders : List OrderRec)
    (_hterm : ∀ o ∈ orders, o.status ∈ TERMINAL_STATUSES) :
    resolve_job_status orders = spec_job_status orders ∧
    ((∀ o ∈ orders, o.status ≠ SUCCEEDED →
        o.status = FAILED ∧ o.must_succeed = false) →
      resolve_job_status orders = SUCCEEDED) := by
  refine ⟨resolve_job_status_eq_spec orders, fun hns => ?_⟩
  rw [resolve_job_status_eq_spec]
  unfold spec_job_status
  have h1 : orders.any (fun o => o.status == TIMED_OUT) = false := by
    rw [List.any_eq_false]
    intro o ho
    by_cases hsu : o.status = SUCCEEDED
    · simp [hsu, SUCCEEDED, TIMED_OUT]
    · have := (hns o ho hsu).1
      simp [this, FAILED, TIMED_OUT]
  have h2 : orders.any (fun o => o.status == FAILED && o.must_succeed) = false := by
    rw [List.any_eq_false]
    intro o ho
    by_cases hsu : o.status = SUCCEEDED
    · simp [hsu, SUCCEEDED, FAILED]
    · simp [(hns o ho hsu).2]
  rw [h1, h2]
  simp

/-- A finished run whose only failures carry `must_succeed = false`. -/
def c4Orders : List OrderRec :=
  [mkOrd "0001" SUCCEEDED [] true, mkOrd "0002" FAILED [] false]

theorem C4_witness :
    (∀ o ∈ c4Orders, o.status ∈ TERMINAL_STATUSES) ∧
    resolve_job_status c4Orders = SUCCEEDED :=
  ⟨by decide,
   (C4_resolve_job_status_follows_spec c4Orders (by decide)).2 (by decide)⟩

/-- A parsed callback body: the JSON object at the canonical callback path,
with its optional `status` and `log` keys (src/common/s3.py `read_result`
parses it; absent keys are modelled as `none`). -/
structure CallbackBody where
  status : Option String
  log : Option String
  deriving Repr, DecidableEq

/-- A row of the append-only `order_events` table, restricted to the fields
the engine writes on every `put_event` (src/common/dynamodb.py). -/
structure Event where
  trace_id : String
  order_name : String
  event_type : String
  status : String
  deriving Repr, DecidableEq

/-- The loop body of `read_state` (src/orchestrator/read_state.py lines
37-84) for one record: running orders with a callback present take the
reported status (defaulting to `failed` when the `status` key is missing),
persist the log only when it is truthy, and append a `completed` event.
`read_state` is called from `execute_orders` without a `trace_id`, so the
event takes the record's own `trace_id`. -/
def read_state_one (cbs : SMap CallbackBody) (o : OrderRec) :
    OrderRec × Option Event :=
  if o.status ≠ RUNNING then (o, none)
  else
    match cbs o.order_num with
    | none => (o, none)
    | some result =>
      let new_status := result.status.getD FAILED
      let log_output := result.log.getD ""
      ({ o with status := new_status,
                log := if log_output ≠ "" then some log_output else o.log },
       some { trace_id := o.trace_id, order_name := o.order_name,
              event_type := "completed", status := new_status })

/-- **C10.** When the callback object for a running order exists but its
body has no `status` key, `read_state` records the order as `failed`, and
the reported log lands on the record only when it is a non-empty string. -/
theorem C10_missing_status_defaults_to_failed (cbs : SMap CallbackBody)
    (o : OrderRec) (body : CallbackBody) (hrun : o.status = RUNNING)
    (hcb : cbs o.order_num = some body) (hnost : body.status = none) :
    (read_state_one cbs o).1.status = FAILED ∧
    (read_state_one cbs o).1.log
      = (if body.log.getD "" = "" then o.log else some (body.log.getD "")) := by
  have hne : ¬ (o.status ≠ RUNNING) := by simp [hrun]
  unfold read_state_one
  rw [if_neg hne, hcb]
  simp only [hnost, Option.getD_none]
  refine ⟨by simp, ?_⟩
  by_cases hl : body.log.getD "" = "" <;> simp [hl]

/-- A running order whose callback carries a log but no status. -/
def c10Order : OrderRec := mkOrd "0001" RUNNING [] true

/-- Callback table holding `{"log": "boom"}` for order 0001. -/
def c10Cbs : SMap CallbackBody :=
  SMap.empty.insert "0001" { status := none, log := some "boom" }

theorem C10_witness :
    (read_state_one c10Cbs c10Order).1.status = FAILED ∧
    (read_state_one c10Cbs c10Order).1.log
      = (if (some "boom" : Option String).getD "" = "" then c10Order.log
         else some ((some "boom" : Option String).getD "")) :=
  C10_missing_status_defaults_to_failed c10Cbs c10Order
    { status := none, log := some "boom" } rfl rfl rfl

/-- Result of one watchdog tick: the returned `done` flag and the callback
body written, if any. -/
structure WatchdogTickResult where
  done : Bool
  written : Option CallbackBody
  deriving Repr, DecidableEq

/-- The synthetic callback the watchdog writes on timeout
(src/watchdog_check/handler.py lines 48-54, via `s3.write_result`). -/
def watchdogBody : CallbackBody :=
  { status := some TIMED_OUT, log := some "Worker unresponsive, timed out by watchdog" }

/-- `handler` (src/watchdog_check/handler.py) as a function of what it
observes: whether `result.json` exists, the current time, and the
Step-Function state `{start_time, timeout}`. -/
def watchdog_handler (resultExists : Bool) (now start_time timeout : Nat) :
    WatchdogTickResult :=
  if resultExists then { done := true, written := none }
  else if now > start_time + timeout then { done := true, written := some watchdogBody }
  else { done := false, written := none }

/-- **C8.** If the callback exists the watchdog returns done without
writing; else past the timeout it writes the synthetic timed_out callback
and returns done; else it returns not-done — and the timed-out callback is
written only in that timeout branch. -/
theorem C8_watchdog_tick (resultExists : Bool) (now start_time timeout : Nat) :
    (resultExists = true →
      watchdog_handler resultExists now start_time timeout = ⟨true, none⟩) ∧
    (resultExists = false → now > start_time + timeout →
      watchdog_handler resultExists now start_time timeout = ⟨true, some watchdogBody⟩) ∧
    (resultExists = false → ¬ now > start_time + timeout →
      watchdog_handler resultExists now start_time timeout = ⟨false, none⟩) ∧
    (∀ b, (watchdog_handler resultExists now start_time timeout).written = some b →
      resultExists = false ∧ now > start_time + timeout ∧ b = watchdogBody) := by
  refine ⟨fun he => by simp [watchdog_handler, he],
          fun he ht => by simp [watchdog_handler, he, ht],
          fun he ht => by simp [watchdog_handler, he, ht],
          fun b hb => ?_⟩
  rcases resultExists with _ | _
  · by_cases ht : now > start_time + timeout
    · simp [watchdog_handler, ht] at hb
      exact ⟨rfl, ht, hb.symm⟩
    · simp [watchdog_handler, ht] at hb
  · simp [watchdog_handler] at hb

theorem C8_witness :
    watchdog_handler false 200 0 60 = ⟨true, some watchdogBody⟩ :=
  (C8_watchdog_tick false 200 0 60).2.1 rfl (by decide)

/-- A record of the `locks` table, with the fields `acquire_lock` installs
(src/common/dynamodb.py lines 226-237). -/
structure LockRec where
  run_id : String
  orchestrator_id : String
  status : String
  acquired_at : Nat
  ttl : Nat
  flow_id : String
  trace_id : String
  deriving Repr, DecidableEq

/-- The condition of the conditional put:
`Attr("pk").not_exists() | Attr("status").eq("completed")`. -/
def lockAcquirable (lock : Option LockRec) : Bool :=
  match lock with
  | none => true
  | some l => l.status == "completed"

/-- `acquire_lock` (src/common/dynamodb.py lines 210-243): a conditional
put on the lock record of `run_id`.  Returns the `True`/`False` outcome and
the resulting lock record. -/
def acquire_lock (lock : Option LockRec) (run_id orchestrator_id : String)
    (now ttl : Nat) (flow_id trace_id : String) : Bool × Option LockRec :=
  if lockAcquirable lock then
    (true, some { run_id := run_id, orchestrator_id := orchestrator_id,
                  status := "active", acquired_at := now, ttl := now + ttl,
                  flow_id := flow_id, trace_id := trace_id })
  else (false, lock)

/-- `release_lock` (src/common/dynamodb.py lines 245-257): set the lock
record's status to `completed` (DynamoDB `update_item` creates the record
if absent, so the other fields default). -/
def release_lock (lock : Option LockRec) : Option LockRec :=
  some { (lock.getD { run_id := "", orchestrator_id := "", status := "",
                      acquired_at := 0, ttl := 0, flow_id := "", trace_id := "" })
         with status := "completed" }

/-- **C3.** `acquire_lock` returns `True`, installing an active record with
the generated orchestrator id, iff no lock record exists or the existing
one is completed; otherwise it returns `False` and leaves the record
unchanged; an existing active lock blocks acquisition whatever the current
time and the stored ttl, so ttl expiry alone never grants takeover. -/
theorem C3_acquire_lock_conditional (lock : Option LockRec)
    (run_id orchestrator_id : String) (now ttl : Nat) (flow_id trace_id : String) :
    ((acquire_lock lock run_id orchestrator_id now ttl flow_id trace_id).1 = true
      ↔ lock = none ∨ ∃ l, lock = some l ∧ l.status = "completed") ∧
    ((acquire_lock lock run_id orchestrator_id now ttl flow_id trace_id).1 = true →
      (acquire_lock lock run_id orchestrator_id now ttl flow_id trace_id).2
        = some { run_id := run_id, orchestrator_id := orchestrator_id,
                 status := "active", acquired_at := now, ttl := now + ttl,
                 flow_id := flow_id, trace_id := trace_id }) ∧
    ((acquire_lock lock run_id orchestrator_id now ttl flow_id trace_id).1 = false →
      (acquire_lock lock run_id orchestrator_id now ttl flow_id trace_id).2 = lock) ∧
    (∀ l, lock = some l → l.status = "active" →
      ∀ now', (acquire_lock lock run_id orchestrator_id now' ttl flow_id trace_id).1
        = false) := by
  refine ⟨?_, ?_, ?_, ?_⟩
  · constructor
    · intro h
      rcases lock with _ | l
      · exact Or.inl rfl
      · refine Or.inr ⟨l, rfl, ?_⟩
        by_contra hne
        have hacq : lockAcquirable (some l) = false := by
          simp [lockAcquirable, hne]
        simp [acquire_lock, hacq] at h
    · intro h
      rcases h with h | ⟨l, hl, hs⟩
      · simp [h, acquire_lock, lockAcquirable]
      · simp [hl, acquire_lock, lockAcquirable, hs]
  · intro h
    rcases hacq : lockAcquirable lock with _ | _
    · simp [acquire_lock, hacq] at h
    · simp [acquire_lock, hacq]
  · intro h
    rcases hacq : lockAcquirable lock with _ | _
    · simp [acquire_lock, hacq]
    · simp [acquire_lock, hacq] at h
  · intro l hl hs now'
    have hacq : lockAcquirable lock = false := by
      simp [hl, lockAcquirable, hs]
    simp [acquire_lock, hacq]

/-- An active lock held by another orchestrator, long expired. -/
def c3ActiveLock : LockRec :=
  { run_id := "r1", orchestrator_id := "other", status := "active",
    acquired_at := 0, ttl := 1, flow_id := "fl", trace_id := "t" }

theorem C3_witness :
    (acquire_lock (some c3ActiveLock) "r1" "me" 999999 3600 "fl" "t").1 = false :=
  (C3_acquire_lock_conditional (some c3ActiveLock) "r1" "me" 999999 3600 "fl" "t").2.2.2
    c3ActiveLock rfl rfl 999999

/-- The five introspection keys the bundler always writes. -/
def INTROSPECTION_KEYS : List String :=
  ["TRACE_ID", "RUN_ID", "ORDER_ID", "ORDER_NUM", "FLOW_ID"]

/-- `OrderBundler` (src/common/bundler.py): identifiers, credential
sources and callback URL feeding `build_env`. -/
structure OrderBundler where
  run_id : String
  order_id : String
  order_num : String
  trace_id : String
  flow_id : String
  env_vars : SMap String
  ssm_values : SMap String
  secret_values : SMap String
  callback_url : String

/-- `OrderBundler.build_env` (src/common/bundler.py lines 38-64): merge
`env_vars` → `ssm_values` → `secret_values` (later wins), add
`CALLBACK_URL` when the callback URL is truthy, then write the five
introspection fields unconditionally. -/
def build_env (b : OrderBundler) : SMap String :=
  let merged : SMap String := SMap.empty
  let merged := merged.update b.env_vars
  let merged := merged.update b.ssm_values
  let merged := merged.update b.secret_values
  let merged := if b.callback_url ≠ "" then merged.insert "CALLBACK_URL" b.callback_url
                else merged
  let merged := merged.insert "TRACE_ID" b.trace_id
  let merged := merged.insert "RUN_ID" b.run_id
  let merged := merged.insert "ORDER_ID" b.order_id
  let merged := merged.insert "ORDER_NUM" b.order_num
  let merged := merged.insert "FLOW_ID" b.flow_id
  merged

/-- A bundler whose user env vars collide with an introspection key. -/
def c7Clash : OrderBundler :=
  { run_id := "", order_id := "", order_num := "", trace_id := "",
    flow_id := "", env_vars := SMap.empty.insert "TRACE_ID" "x",
    ssm_values := SMap.empty, secret_values := SMap.empty, callback_url := "" }

/-- **C7 counterexample.** The claim's merge law quantifies over *every*
key; at key `TRACE_ID` — absent from both credential sources and present in
`env_vars` — it demands `E["TRACE_ID"] = "x"`, but the introspection write
overwrites it with the (empty) trace id. -/
theorem C7_counterexample :
    c7Clash.secret_values "TRACE_ID" = none ∧
    c7Clash.ssm_values "TRACE_ID" = none ∧
    c7Clash.env_vars "TRACE_ID" = some "x" ∧
    build_env c7Clash "TRACE_ID" ≠ c7Clash.env_vars "TRACE_ID" :=
  ⟨rfl, rfl, rfl, by decide⟩

/-- **C7 (amended).** For every key other than the five introspection keys
and — when a callback URL is present — `CALLBACK_URL`, the produced env map
obeys the merge law: secret value first, else SSM value, else user env
value; `CALLBACK_URL` is added when a callback URL is present; and the five
introspection keys are always present, holding the identifier fields (which
are empty strings when the identifiers are absent). -/
theorem C7_build_env_spec (b : OrderBundler) (k : String)
    (hk : k ∉ INTROSPECTION_KEYS) (hcbk : k = "CALLBACK_URL" → b.callback_url = "") :
    (build_env b k
      = if (b.secret_values k).isSome then b.secret_values k
        else if (b.ssm_values k).isSome then b.ssm_values k
        else b.env_vars k) ∧
    (b.callback_url ≠ "" → build_env b "CALLBACK_URL" = some b.callback_url) ∧
    (build_env b "TRACE_ID" = some b.trace_id ∧
     build_env b "RUN_ID" = some b.run_id ∧
     build_env b "ORDER_ID" = some b.order_id ∧
     build_env b "ORDER_NUM" = some b.order_num ∧
     build_env b "FLOW_ID" = some b.flow_id) := by
  simp only [INTROSPECTION_KEYS, List.mem_cons, List.not_mem_nil, or_false,
    not_or] at hk
  obtain ⟨h1, h2, h3, h4, h5⟩ := hk
  refine ⟨?_, ?_, ?_, ?_, ?_, ?_, ?_⟩
  · simp only [build_env, SMap.insert, SMap.update, SMap.empty]
    rw [if_neg h5, if_neg h4, if_neg h3, if_neg h2, if_neg h1]
    have hmain :
        (((b.secret_values k).orElse fun _ =>
          (b.ssm_values k).orElse fun _ => (b.env_vars k).orElse fun _ => none)
        = if (b.secret_values k).isSome then b.secret_values k
          else if (b.ssm_values k).isSome then b.ssm_values k
          else b.env_vars k) := by
      rcases b.secret_values k with _ | v1 <;> rcases b.ssm_values k with _ | v2 <;>
        rcases b.env_vars k with _ | v3 <;> simp [Option.orElse]
    by_cases hcb : b.callback_url ≠ ""
    · rw [if_pos hcb]
      by_cases hkc : k = "CALLBACK_URL"
      · exact absurd (hcbk hkc) hcb
      · simp only [SMap.insert]
        rw [if_neg hkc]
        exact hmain
    · rw [if_neg hcb]
      exact hmain
  · intro hcb
    simp only [build_env, SMap.insert, SMap.update, SMap.empty]
    rw [if_pos hcb]
    simp [SMap.insert]
  all_goals simp [build_env, SMap.insert]

/-- The spec's env-overwrite-collision scenario: `X` set by all three
sources. -/
def c7Collide : OrderBundler :=
  { run_id := "r", order_id := "o", order_num := "0001", trace_id := "t",
    flow_id := "fl",
    env_vars := SMap.empty.insert "X" "a",
    ssm_values := SMap.empty.insert "X" "b",
    secret_values := SMap.empty.insert "X" "c",
    callback_url := "http://cb" }

theorem C7_witness : build_env c7Collide "X" = some "c" := by
  rw [(C7_build_env_spec c7Collide "X" (by decide) (by decide)).1]
  rfl

/-- Python truthiness of an optional string: present and non-empty. -/
def optTruthy (s : Option String) : Bool :=
  match s with
  | some v => v ≠ ""
  | none => false

/-- Valid execution targets.  Modelled from the spec: `EXECUTION_TARGETS`
is imported by src/init_job/validate.py from src/common/models.py but is
missing from the copy of that file under src/; the spec (§3:
`execution_target ∈ {function, build, agent}`, realized as
`lambda`/`codebuild`/`ssm` by src/orchestrator/dispatch.py and
src/ssm_config/insert.py) and tests/unit/test_models.py fix it as below. -/
def EXECUTION_TARGETS : List String := ["lambda", "codebuild", "ssm"]

/-- The `ssm_targets` mapping of an agent-targeted order: optional
`instance_ids` list and `tags` map.  Modelled from the spec (§3, §4.1);
the field is missing from src/common/models.py as given. -/
structure SsmTargets where
  instance_ids : List String
  tags : List (String × String)
  deriving Repr, DecidableEq

/-- The order fields read by `validate_orders` (src/init_job/validate.py).
`execution_target` (default `codebuild`) and `ssm_targets` are modelled
from the spec and tests/unit/test_models.py, being absent from the
src/common/models.py copy; the remaining fields are those of `Order` in
src/common/models.py. -/
structure VOrder where
  order_name : Option String
  cmds : List String
  timeout : Int
  execution_target : String := "codebuild"
  ssm_targets : Option SsmTargets
  s3_location : Option String
  git_repo : Option String
  deriving Repr, DecidableEq

/-- The job fields read by `validate_orders`. -/
structure VJob where
  git_repo : String
  git_token_location : String
  orders : List VOrder
  deriving Repr, DecidableEq

/-- The per-order checks of `validate_orders` (src/init_job/validate.py
lines 16-36), returning the first error for this order, if any.  Error
message texts are carried without the Python repr quoting. -/
def validateOne (job : VJob) (i : Nat) (order : VOrder) : Option String :=
  let order_label :=
    match order.order_name with
    | some s => if s = "" then "order[" ++ toString i ++ "]" else s
    | none => "order[" ++ toString i ++ "]"
  if order.cmds = [] then some (order_label ++ ": cmds is empty or missing")
  else if order.timeout ≤ 0 then some (order_label ++ ": timeout is missing or invalid")
  else if order.execution_target ∉ EXECUTION_TARGETS then
    some (order_label ++ ": invalid execution_target (must be one of codebuild, lambda, ssm)")
  else
    let has_s3 := optTruthy order.s3_location
    let has_git := (optTruthy order.git_repo || job.git_repo ≠ "")
                     && job.git_token_location ≠ ""
    if !has_s3 && !has_git then
      some (order_label ++ ": no code source (need s3_location or git_repo + git_token_location)")
    else none

/-- The fail-fast loop of `validate_orders`: return on the first order with
an error. -/
def validate_go (job : VJob) (i : Nat) : List VOrder → List String
  | [] => []
  | o :: rest =>
    match validateOne job i o with
    | some err => [err]
    | none => validate_go job (i + 1) rest

/-- `validate_orders` (src/init_job/validate.py): list of errors, empty if
the job is valid. -/
def validate_orders (job : VJob) : List String :=
  if job.orders = [] then ["Job has no orders"]
  else validate_go job 0 job.orders

/-- The rejection condition on a single order, as the (amended) claim words
it: empty `cmds`, non-positive timeout, invalid execution target, or no
code source (neither `s3_location` nor a git repo resolvable from order or
job together with a job-level token reference). -/
def specRejects (job : VJob) (o : VOrder) : Prop :=
  o.cmds = [] ∨ o.timeout ≤ 0 ∨ o.execution_target ∉ EXECUTION_TARGETS ∨
  (¬ optTruthy o.s3_location ∧
   ¬ ((optTruthy o.git_repo ∨ job.git_repo ≠ "") ∧ job.git_token_location ≠ ""))

instance (job : VJob) (o : VOrder) : Decidable (specRejects job o) := by
  unfold specRejects; infer_instance

theorem validateOne_none_iff (job : VJob) (i : Nat) (o : VOrder) :
    validateOne job i o = none ↔ ¬ specRejects job o := by
  by_cases h1 : o.cmds = []
  · simp [validateOne, specRejects, h1]
  · by_cases h2 : o.timeout ≤ 0
    · simp [validateOne, specRejects, h1, h2]
    · by_cases h3 : o.execution_target ∉ EXECUTION_TARGETS
      · simp [validateOne, specRejects, h1, h2, h3]
      · by_cases h4 : optTruthy o.s3_location = true
        · simp [validateOne, specRejects, h1, h2, h3, h4]
        · have h4' : optTruthy o.s3_location = false := by simpa using h4
          by_cases h5 : (optTruthy o.git_repo ∨ job.git_repo ≠ "")
                          ∧ job.git_token_location ≠ ""
          · have h5' : ((optTruthy o.git_repo || decide (job.git_repo ≠ ""))
                && decide (job.git_token_location ≠ "")) = true := by
              rcases h5 with ⟨h5a, h5b⟩
              rcases h5a with h5a | h5a <;> simp [h5a, h5b]
            have hnr : ¬ specRejects job o := by
              intro hrej
              rcases hrej with h | h | h | ⟨_, hng⟩
              exacts [h1 h, h2 h, h3 h, hng h5]
            simp [validateOne, h1, h2, h3, h4', h5', hnr]
            refine ⟨fun hg => ?_, h5.2⟩
            rcases h5.1 with ha | ha
            · rw [hg] at ha
              exact absurd ha (by simp)
            · exact ha
          · have h5' : ((optTruthy o.git_repo || decide (job.git_repo ≠ ""))
                && decide (job.git_token_location ≠ "")) = false := by
              rcases not_and_or.mp h5 with h' | h'
              · rcases not_or.mp h' with ⟨ha, hb⟩
                have ha' : optTruthy o.git_repo = false := by simpa using ha
                have hb' : job.git_repo = "" := not_not.mp hb
                simp [ha', hb']
              · have h'' : job.git_token_location = "" := not_not.mp h'
                simp [h'']
            have hr : specRejects job o :=
              Or.inr (Or.inr (Or.inr ⟨by simpa using h4', h5⟩))
            simp [validateOne, h1, h2, h3, h4', h5', hr]
            intro himp
            rcases not_and_or.mp h5 with h' | h'
            · rcases not_or.mp h' with ⟨ha, hb⟩
              have ha' : optTruthy o.git_repo = false := by simpa using ha
              exact absurd (not_not.mp hb) (himp ha')
            · exact not_not.mp h'

theorem validate_go_nil_iff (job : VJob) (os : List VOrder) :
    ∀ i, (validate_go job i os = [] ↔ ∀ o ∈ os, ¬ specRejects job o) := by
  induction os with
  | nil => intro i; simp [validate_go]
  | cons o rest ih =>
    intro i
    unfold validate_go
    rcases hv : validateOne job i o with _ | err
    · have ho := (validateOne_none_iff job i o).mp hv
      simp [ih (i + 1), ho]
    · have ho : specRejects job o := by
        by_contra hno
        rw [(validateOne_none_iff job i o).mpr hno] at hv
        exact Option.noConfusion hv
      simp [ho]

theorem validate_go_first (job : VJob) (pre : List VOrder) :
    ∀ (i : Nat) (o : VOrder) (rest : List VOrder) (m : String),
      (∀ p ∈ pre, ¬ specRejects job p) →
      validateOne job (i + pre.length) o = some m →
      validate_go job i (pre ++ o :: rest) = [m] := by
  induction pre with
  | nil =>
    intro i o rest m _ hone
    simp only [List.nil_append, validate_go]
    simpa using hone ▸ rfl
  | cons p ptl ih =>
    intro i o rest m hpre hone
    have hp : ¬ specRejects job p := hpre p (List.mem_cons_self ..)
    have hpv := (validateOne_none_iff job i p).mpr hp
    simp only [List.cons_append, validate_go, hpv]
    have hone' : validateOne job ((i + 1) + ptl.length) o = some m := by
      have : (i + 1) + ptl.length = i + (p :: ptl).length := by
        simp [List.length_cons]; omega
      rw [this]
      exact hone
    exact ih (i + 1) o rest m (fun q hq => hpre q (List.mem_cons_of_mem _ hq)) hone'

/-- A job whose single order targets the agent back-end (`ssm`) with no
`ssm_targets` at all, but carries a valid code source. -/
def c6AgentOrder : VOrder :=
  { order_name := some "agent-order", cmds := ["echo hi"], timeout := 300,
    execution_target := "ssm", ssm_targets := none,
    s3_location := some "s3://bucket/code.zip", git_repo := none }

/-- The surrounding job for the C6 counterexample. -/
def c6AgentJob : VJob :=
  { git_repo := "org/repo", git_token_location := "aws:::ssm:/token",
    orders := [c6AgentOrder] }

/-- **C6 counterexample.** The claim says validation rejects an
agent-targeted order without `ssm_targets`; `validate_orders` in
src/init_job/validate.py performs no such check and accepts this job. -/
theorem C6_counterexample :
    c6AgentOrder.execution_target = "ssm" ∧ c6AgentOrder.ssm_targets = none ∧
    validate_orders c6AgentJob = [] :=
  ⟨rfl, rfl, by decide⟩

/-- **C6 (amended).** `validate_orders` fails on the first invalid order
and rejects exactly: an empty order list; empty `cmds`; a missing or
non-positive timeout; an invalid `execution_target`; and a missing code
source (no `s3_location` and no git repo resolvable from order or job with
a job-level token reference).  The agent/`ssm_targets` check of the spec is
*not* performed here (it lives in the separate ssm_config validator).  A
job passing all checks yields the empty error list. -/
theorem C6_validate_orders_spec (job : VJob) :
    (job.orders = [] → validate_orders job = ["Job has no orders"]) ∧
    (job.orders ≠ [] →
      (validate_orders job = [] ↔ ∀ o ∈ job.orders, ¬ specRejects job o)) ∧
    (∀ pre o rest m, job.orders = pre ++ o :: rest →
      (∀ p ∈ pre, ¬ specRejects job p) →
      validateOne job pre.length o = some m →
      validate_orders job = [m]) := by
  refine ⟨fun h => by simp [validate_orders, h], fun h => ?_, ?_⟩
  · rw [validate_orders, if_neg h]
    exact validate_go_nil_iff job job.orders 0
  · intro pre o rest m horders hpre hone
    have hne : job.orders ≠ [] := by
      rw [horders]; exact List.append_ne_nil_of_right_ne_nil _ (by simp)
    rw [validate_orders, if_neg hne, horders]
    exact validate_go_first job pre 0 o rest m hpre (by simpa using hone)

/-- A fully valid two-order job (code sources via s3 and via the job git
repo + token). -/
def c6ValidJob : VJob :=
  { git_repo := "org/repo", git_token_location := "aws:::ssm:/token",
    orders :=
      [{ order_name := some "a", cmds := ["echo a"], timeout := 300,
         execution_target := "codebuild", ssm_targets := none,
         s3_location := some "s3://b/a.zip", git_repo := none },
       { order_name := none, cmds := ["echo b"], timeout := 60,
         execution_target := "lambda", ssm_targets := none,
         s3_location := none, git_repo := none }] }

theorem C6_witness : validate_orders c6ValidJob = [] :=
  ((C6_validate_orders_spec c6ValidJob).2.1 (by decide)).mpr (by decide)

/-- A JSON value as handled by `json.dumps`/`json.loads`.  Objects are
modelled as function maps, matching the dict model used throughout. -/
inductive JValue where
  | jstr (s : String)
  | jint (n : Int)
  | jbool (b : Bool)
  | jarr (xs : List JValue)
  | jobj (fields : String → Option JValue)

/-- Read a JSON value as a string (any other shape is a type error of the
Python constructor, modelled as `none`). -/
def asStr : JValue → Option String
  | .jstr s => some s
  | _ => none

/-- Read a JSON value as an integer. -/
def asInt : JValue → Option Int
  | .jint n => some n
  | _ => none

/-- Read a JSON value as a boolean. -/
def asBool : JValue → Option Bool
  | .jbool b => some b
  | _ => none

/-- Read a list of JSON values as a list of strings. -/
def asStrs : List JValue → Option (List String)
  | [] => some []
  | v :: rest => do
    let s ← asStr v
    let tl ← asStrs rest
    some (s :: tl)

/-- Read a JSON value as a list of strings. -/
def asStrList : JValue → Option (List String)
  | .jarr xs => asStrs xs
  | _ => none

/-- Read a JSON value as a string-to-string dict. -/
def asStrMap : JValue → Option (SMap String)
  | .jobj f => some (fun k => (f k).bind asStr)
  | _ => none

/-- Read a JSON value as an object. -/
def asObj : JValue → Option (String → Option JValue)
  | .jobj f => some f
  | _ => none

/-- `Order` (src/common/models.py lines 21-49): per-order fields from the
job parameters, with the source's defaults. -/
structure Order where
  cmds : List String
  timeout : Int
  order_name : Option String := none
  git_repo : Option String := none
  git_folder : Option String := none
  commit_hash : Option String := none
  s3_location : Option String := none
  env_vars : Option (SMap String) := none
  ssm_paths : Option (List String) := none
  secret_manager_paths : Option (List String) := none
  sops_key : Option String := none
  use_lambda : Bool := false
  queue_id : Option String := none
  dependencies : Option (List String) := none
  must_succeed : Bool := true
  callback_url : Option String := none

/-- `Order.to_dict` (src/common/models.py line 42-43): `asdict` keyed by
field name, dropping `None` values (and only those — `False` and empty
containers are kept). -/
def Order.to_dict (o : Order) : String → Option JValue := fun k =>
  if k = "cmds" then some (.jarr (o.cmds.map .jstr))
  else if k = "timeout" then some (.jint o.timeout)
  else if k = "order_name" then o.order_name.map .jstr
  else if k = "git_repo" then o.git_repo.map .jstr
  else if k = "git_folder" then o.git_folder.map .jstr
  else if k = "commit_hash" then o.commit_hash.map .jstr
  else if k = "s3_location" then o.s3_location.map .jstr
  else if k = "env_vars" then
    o.env_vars.map (fun m => .jobj (fun k' => (m k').map .jstr))
  else if k = "ssm_paths" then o.ssm_paths.map (fun l => .jarr (l.map .jstr))
  else if k = "secret_manager_paths" then
    o.secret_manager_paths.map (fun l => .jarr (l.map .jstr))
  else if k = "sops_key" then o.sops_key.map .jstr
  else if k = "use_lambda" then some (.jbool o.use_lambda)
  else if k = "queue_id" then o.queue_id.map .jstr
  else if k = "dependencies" then o.dependencies.map (fun l => .jarr (l.map .jstr))
  else if k = "must_succeed" then some (.jbool o.must_succeed)
  else if k = "callback_url" then o.callback_url.map .jstr
  else none

/-- `Order.from_dict` (src/common/models.py lines 45-49): construct from
the known fields of a dict — absent optional fields take their defaults,
absent required fields raise (modelled as `none`). -/
def Order.from_dict (d : String → Option JValue) : Option Order := do
  let cmds ← (d "cmds").bind asStrList
  let timeout ← (d "timeout").bind asInt
  some { cmds := cmds, timeout := timeout,
         order_name := (d "order_name").bind asStr,
         git_repo := (d "git_repo").bind asStr,
         git_folder := (d "git_folder").bind asStr,
         commit_hash := (d "commit_hash").bind asStr,
         s3_location := (d "s3_location").bind asStr,
         env_vars := (d "env_vars").bind asStrMap,
         ssm_paths := (d "ssm_paths").bind asStrList,
         secret_manager_paths := (d "secret_manager_paths").bind asStrList,
         sops_key := (d "sops_key").bind asStr,
         use_lambda := ((d "use_lambda").bind asBool).getD false,
         queue_id := (d "queue_id").bind asStr,
         dependencies := (d "dependencies").bind asStrList,
         must_succeed := ((d "must_succeed").bind asBool).getD true,
         callback_url := (d "callback_url").bind asStr }

/-- `Job` (src/common/models.py lines 52-67): job-level fields plus the
orders, with the source's defaults. -/
structure Job where
  git_repo : String
  git_token_location : String
  username : String
  orders : List Order
  pr_number : Option Int := none
  issue_number : Option Int := none
  git_ssh_key_location : Option String := none
  commit_hash : Option String := none
  flow_label : String := "exec"
  pr_comment_search_tag : Option String := none
  presign_expiry : Int := 7200
  job_timeout : Int := 3600

/-- `Job.to_dict` (src/common/models.py lines 69-72): `asdict`, with
`orders` re-serialized through `Order.to_dict`, dropping `None` values. -/
def Job.to_dict (j : Job) : String → Option JValue := fun k =>
  if k = "git_repo" then some (.jstr j.git_repo)
  else if k = "git_token_location" then some (.jstr j.git_token_location)
  else if k = "username" then some (.jstr j.username)
  else if k = "orders" then some (.jarr (j.orders.map (fun o => .jobj o.to_dict)))
  else if k = "pr_number" then j.pr_number.map .jint
  else if k = "issue_number" then j.issue_number.map .jint
  else if k = "git_ssh_key_location" then j.git_ssh_key_location.map .jstr
  else if k = "commit_hash" then j.commit_hash.map .jstr
  else if k = "flow_label" then some (.jstr j.flow_label)
  else if k = "pr_comment_search_tag" then j.pr_comment_search_tag.map .jstr
  else if k = "presign_expiry" then some (.jint j.presign_expiry)
  else if k = "job_timeout" then some (.jint j.job_timeout)
  else none

/-- The list comprehension `[Order.from_dict(o) for o in orders_data]`:
each element must be a dict accepted by `Order.from_dict`. -/
def asOrders : List JValue → Option (List Order)
  | [] => some []
  | v :: rest => do
    let d ← asObj v
    let o ← Order.from_dict d
    let tl ← asOrders rest
    some (o :: tl)

/-- `Job.from_dict` (src/common/models.py lines 74-80): decode `orders`
(defaulting to the empty list when absent), then construct from the known
fields. -/
def Job.from_dict (d : String → Option JValue) : Option Job := do
  let orders_data ← match d "orders" with
    | none => some ([] : List JValue)
    | some (.jarr xs) => some xs
    | some _ => none
  let orders ← asOrders orders_data
  let git_repo ← (d "git_repo").bind asStr
  let git_token_location ← (d "git_token_location").bind asStr
  let username ← (d "username").bind asStr
  some { git_repo := git_repo, git_token_location := git_token_location,
         username := username, orders := orders,
         pr_number := (d "pr_number").bind asInt,
         issue_number := (d "issue_number").bind asInt,
         git_ssh_key_location := (d "git_ssh_key_location").bind asStr,
         commit_hash := (d "commit_hash").bind asStr,
         flow_label := ((d "flow_label").bind asStr).getD "exec",
         pr_comment_search_tag := (d "pr_comment_search_tag").bind asStr,
         presign_expiry := ((d "presign_expiry").bind asInt).getD 7200,
         job_timeout := ((d "job_timeout").bind asInt).getD 3600 }

/-- `Job.to_b64` (src/common/models.py lines 82-83): `json.dumps` followed
by base64.  Both stdlib codecs are injective and inverted exactly by
`json.loads`/`b64decode`, so the transport string is modelled by the JSON
value it carries. -/
def Job.to_b64 (j : Job) : JValue := .jobj j.to_dict

/-- `Job.from_b64` (src/common/models.py lines 85-88): base64-decode,
parse JSON, and rebuild through `Job.from_dict`. -/
def Job.from_b64 (v : JValue) : Option Job := do
  Job.from_dict (← asObj v)

theorem asStr_jstr (s : String) : asStr (.jstr s) = some s := rfl

theorem asInt_jint (n : Int) : asInt (.jint n) = some n := rfl

theorem asBool_jbool (b : Bool) : asBool (.jbool b) = some b := rfl

theorem asStrList_jarr (xs : List JValue) : asStrList (.jarr xs) = asStrs xs := rfl

theorem asObj_jobj (f : String → Option JValue) : asObj (.jobj f) = some f := rfl

theorem asStrs_map_jstr (l : List String) :
    asStrs (l.map JValue.jstr) = some l := by
  induction l with
  | nil => rfl
  | cons s rest ih => simp [asStrs, asStr, ih]

theorem opt_str_rt (x : Option String) :
    (x.map JValue.jstr).bind asStr = x := by
  cases x <;> simp [asStr]

theorem opt_int_rt (x : Option Int) :
    (x.map JValue.jint).bind asInt = x := by
  cases x <;> simp [asInt]

theorem opt_strlist_rt (x : Option (List String)) :
    (x.map (fun l => JValue.jarr (l.map JValue.jstr))).bind asStrList = x := by
  cases x <;> simp [asStrList, asStrs_map_jstr]

theorem strmap_rt (m : SMap String) :
    asStrMap (.jobj (fun k => (m k).map JValue.jstr)) = some m := by
  simp only [asStrMap, Option.some.injEq]
  funext k
  cases m k <;> simp [asStr]

theorem opt_strmap_rt (x : Option (SMap String)) :
    (x.map (fun m => JValue.jobj (fun k => (m k).map JValue.jstr))).bind asStrMap
    = x := by
  cases x with
  | none => rfl
  | some m => simpa using strmap_rt m

theorem Order.from_dict_to_dict (o : Order) :
    Order.from_dict o.to_dict = some o := by
  simp [Order.from_dict, Order.to_dict, asStr_jstr, asInt_jint, asBool_jbool,
    asStrList_jarr, asStrs_map_jstr, opt_str_rt, opt_strlist_rt, opt_strmap_rt]

theorem asOrders_map (os : List Order) :
    asOrders (os.map (fun o => JValue.jobj o.to_dict)) = some os := by
  induction os with
  | nil => rfl
  | cons o rest ih => simp [asOrders, asObj, Order.from_dict_to_dict, ih]

/-- **C9.** For every job, base64/JSON encoding followed by decoding
reconstructs the job exactly: `Job.from_b64 (j.to_b64) = some j`, including
defaulted fields and the `None` fields dropped from the wire. -/
theorem C9_job_b64_round_trip (j : Job) : Job.from_b64 j.to_b64 = some j := by
  simp [Job.from_b64, Job.to_b64, asObj_jobj, Job.from_dict, Job.to_dict,
    asOrders_map, asStr_jstr, asInt_jint, opt_str_rt, opt_int_rt]

/-- A running watchdog probe: the Step-Function input recorded at dispatch
(src/orchestrator/dispatch.py `_start_watchdog`). -/
structure Watchdog where
  order_num : String
  timeout : Nat
  start_time : Nat
  deriving Repr, DecidableEq

/-- The state of one run across the three durable stores: its order
records, the append-only event rows of its trace, the callback objects
under `tmp/callbacks/runs/<run_id>/`, the number of writes of the done
artifact, the lock record, and the running watchdog probes. -/
structure SysState where
  orders : List OrderRec
  events : List Event
  callbacks : SMap CallbackBody
  doneWrites : Nat
  lock : Option LockRec
  watchdogs : List Watchdog

/-- `read_state` (src/orchestrator/read_state.py) over the full record
list: updated records plus the `completed` events appended. -/
def read_state (cbs : SMap CallbackBody) :
    List OrderRec → List OrderRec × List Event
  | [] => ([], [])
  | o :: rest =>
    let (o', ev) := read_state_one cbs o
    let (os, evs) := read_state cbs rest
    (o' :: os, ev.toList ++ evs)

/-- A keyed write to the orders table: update every record whose
`order_num` matches (the DynamoDB pk is unique, so exactly one in a real
table). -/
def updateByNum (os : List OrderRec) (num : String) (f : OrderRec → OrderRec) :
    List OrderRec :=
  os.map (fun r => if r.order_num = num then f r else r)

/-- The cascade update of `execute_orders` (src/orchestrator/handler.py
lines 56-64): `status = failed`, `failure_reason = "dependency_failed"`. -/
def cascadeUpd (r : OrderRec) : OrderRec :=
  { r with status := FAILED, failure_reason := some "dependency_failed" }

/-- The dispatch update (src/orchestrator/dispatch.py `_dispatch_single`):
`status = running`. -/
def dispatchUpd (r : OrderRec) : OrderRec :=
  { r with status := RUNNING }

/-- The `dependency_failed` event of src/orchestrator/handler.py. -/
def depFailedEvent (trace_id : String) (o : OrderRec) : Event :=
  { trace_id := trace_id, order_name := o.order_name,
    event_type := "dependency_failed", status := FAILED }

/-- The `dispatched` event of src/orchestrator/dispatch.py. -/
def dispatchedEvent (trace_id : String) (o : OrderRec) : Event :=
  { trace_id := trace_id, order_name := o.order_name,
    event_type := "dispatched", status := RUNNING }

/-- The `job_completed` event of src/orchestrator/finalize.py. -/
def jobCompletedEvent (trace_id job_status : String) : Event :=
  { trace_id := trace_id, order_name := JOB_ORDER_NAME,
    event_type := "job_completed", status := job_status }

/-- The `job_started` event of src/init_job/insert.py. -/
def jobStartedEvent (trace_id : String) : Event :=
  { trace_id := trace_id, order_name := JOB_ORDER_NAME,
    event_type := "job_started", status := RUNNING }

/-- One iteration of the cascade loop of `execute_orders`. -/
def cascadeOne (trace_id : String) (s : SysState) (o : OrderRec) : SysState :=
  { s with orders := updateByNum s.orders o.order_num cascadeUpd,
           events := s.events ++ [depFailedEvent trace_id o] }

/-- One dispatch of `dispatch_orders`: back-end invocation (external),
watchdog start, record update to running, `dispatched` event. -/
def dispatchOne (now : Nat) (trace_id : String) (s : SysState) (o : OrderRec) :
    SysState :=
  { s with orders := updateByNum s.orders o.order_num dispatchUpd,
           watchdogs := s.watchdogs
             ++ [{ order_num := o.order_num, timeout := o.timeout, start_time := now }],
           events := s.events ++ [dispatchedEvent trace_id o] }

/-- `check_and_finalize` (src/orchestrator/finalize.py lines 49-108): when
every record is terminal, write the `job_completed` event and the done
artifact and complete the lock; otherwise just release the lock. -/
def check_and_finalize (trace_id : String) (s : SysState) : SysState :=
  if s.orders.all (fun o => decide (o.status ∈ TERMINAL_STATUSES)) then
    { s with events := s.events
               ++ [jobCompletedEvent trace_id (resolve_job_status s.orders)],
             doneWrites := s.doneWrites + 1,
             lock := release_lock s.lock }
  else { s with lock := release_lock s.lock }

/-- A placeholder record for the (unreachable) head of an empty list. -/
def dummyOrder : OrderRec := mkOrd "" "" [] true

/-- `execute_orders` (src/orchestrator/handler.py lines 30-104): read
state, evaluate, cascade dependency failures, dispatch ready orders,
finalize or release. -/
def execute_orders (now : Nat) (s : SysState) : SysState :=
  let rs := read_state s.callbacks s.orders
  let s1 : SysState := { s with orders := rs.1, events := s.events ++ rs.2 }
  if rs.1 = [] then { s1 with lock := release_lock s1.lock }
  else
    let trace_id := (rs.1.headD dummyOrder).trace_id
    let ev := evaluate_orders rs.1
    let s2 := ev.2.1.foldl (cascadeOne trace_id) s1
    let s3 := ev.1.foldl (dispatchOne now trace_id) s2
    check_and_finalize trace_id s3

/-- The controller `handler` (src/orchestrator/handler.py lines 107-133):
acquire the lock with a fresh orchestrator id (skip when it is held), then
run `execute_orders`. -/
def controller (now : Nat) (oid : String) (s : SysState) : SysState :=
  let acq := acquire_lock s.lock "run" oid now 3600 "" ""
  if acq.1 then execute_orders now { s with lock := acq.2 } else s

/-- A worker (or back-end) PUT of the callback object: last write wins
(spec §4.6/§4.7; the write itself is outside src/). -/
def worker_write (order_num : String) (body : CallbackBody) (s : SysState) :
    SysState :=
  { s with callbacks := s.callbacks.insert order_num body }

/-- One tick of the watchdog probe for `order_num`
(src/watchdog_check/handler.py): writes the synthetic timed-out callback
when the budget is exhausted and no callback exists. -/
def watchdog_tick (order_num : String) (now : Nat) (s : SysState) : SysState :=
  match s.watchdogs.find? (fun w => w.order_num == order_num) with
  | none => s
  | some w =>
    match (watchdog_handler (s.callbacks w.order_num).isSome now
        w.start_time w.timeout).written with
    | some body => { s with callbacks := s.callbacks.insert w.order_num body }
    | none => s

/-- The external events driving one run: controller triggers (callback
creations), worker callback writes, watchdog ticks. -/
inductive Action where
  | controller (now : Nat) (oid : String)
  | workerWrite (order_num : String) (body : CallbackBody)
  | watchdogTick (order_num : String) (now : Nat)

/-- One step of the system. -/
def step (s : SysState) (a : Action) : SysState :=
  match a with
  | .controller now oid => controller now oid s
  | .workerWrite num body => worker_write num body s
  | .watchdogTick num now => watchdog_tick num now s

/-- Run a list of actions. -/
def execTrace (s : SysState) (acts : List Action) : SysState :=
  acts.foldl step s

/-- The init trigger body `{"status": "init", "log": ""}`
(src/common/s3.py `write_init_trigger`). -/
def initCallback : CallbackBody := { status := some "init", log := some "" }

/-- The state after `insert_orders` (src/init_job/insert.py): all records
queued, one `job_started` event, the init trigger at order `0000`, no
lock, no watchdogs. -/
def initState (orders : List OrderRec) (trace_id : String) : SysState :=
  { orders := orders, events := [jobStartedEvent trace_id],
    callbacks := SMap.empty.insert "0000" initCallback,
    doneWrites := 0, lock := none, watchdogs := [] }

/-- A callback body that only ever reports terminal statuses (spec §6: the
callback interface carries a terminal status; a missing key is allowed and
defaults to failed on read). -/
def goodBody (b : CallbackBody) : Bool :=
  match b.status with
  | none => true
  | some st => decide (st ∈ TERMINAL_STATUSES)

/-- Worker writes conforming to the callback interface. -/
def goodAction : Action → Prop
  | .workerWrite _ body => goodBody body = true
  | _ => True

/-- The callback objects stored under the run's order numbers conform to
the callback interface. -/
def goodCallbacks (s : SysState) : Prop :=
  ∀ num ∈ s.orders.map (fun o => o.order_num),
    ∀ b, s.callbacks num = some b → goodBody b = true

/-- The system invariant: record keys are unique and stored callbacks are
interface-conformant. -/
def Inv (s : SysState) : Prop :=
  (s.orders.map (fun o => o.order_num)).Nodup ∧ goodCallbacks s

/-- The transition graph of spec §3: stutter, `queued → running`,
`running →` terminal, and the dependency cascade `queued → failed` with
`failure_reason = "dependency_failed"`. -/
def StatusStep (o o' : OrderRec) : Prop :=
  o'.status = o.status
  ∨ (o.status = QUEUED ∧ o'.status = RUNNING)
  ∨ (o.status = RUNNING ∧ o'.status ∈ TERMINAL_STATUSES)
  ∨ (o.status = QUEUED ∧ o'.status = FAILED
      ∧ o'.failure_reason = some "dependency_failed")

/-- Number of `job_started` events. -/
def countJS (s : SysState) : Nat :=
  s.events.countP (fun e => e.event_type == "job_started")

/-- Number of `job_completed` events. -/
def countJC (s : SysState) : Nat :=
  s.events.countP (fun e => e.event_type == "job_completed")

theorem read_state_one_fst_order_num (cbs : SMap CallbackBody) (o : OrderRec) :
    (read_state_one cbs o).1.order_num = o.order_num := by
  unfold read_state_one
  by_cases h : o.status ≠ RUNNING
  · rw [if_pos h]
  · rw [if_neg h]
    rcases cbs o.order_num with _ | b <;> rfl

theorem read_state_one_spec (cbs : SMap CallbackBody) (o : OrderRec) :
    (read_state_one cbs o).1 = o
    ∨ (o.status = RUNNING ∧ ∃ b, cbs o.order_num = some b ∧
        (read_state_one cbs o).1.status = b.status.getD FAILED ∧
        (read_state_one cbs o).1.failure_reason = o.failure_reason) := by
  unfold read_state_one
  by_cases h : o.status ≠ RUNNING
  · rw [if_pos h]
    exact Or.inl rfl
  · rw [if_neg h]
    have hrun : o.status = RUNNING := not_not.mp h
    rcases hcb : cbs o.order_num with _ | b
    · exact Or.inl rfl
    · exact Or.inr ⟨hrun, b, rfl, rfl, rfl⟩

theorem read_state_one_snd (cbs : SMap CallbackBody) (o : OrderRec) (ev : Event)
    (h : (read_state_one cbs o).2 = some ev) : ev.event_type = "completed" := by
  unfold read_state_one at h
  by_cases hr : o.status ≠ RUNNING
  · rw [if_pos hr] at h
    exact Option.noConfusion h
  · rw [if_neg hr] at h
    rcases hcb : cbs o.order_num with _ | b
    · rw [hcb] at h
      exact Option.noConfusion h
    · rw [hcb] at h
      simp only [Option.some.injEq] at h
      rw [← h]

theorem read_state_eq (cbs : SMap CallbackBody) (os : List OrderRec) :
    read_state cbs os
    = (os.map (fun o => (read_state_one cbs o).1),
       os.filterMap (fun o => (read_state_one cbs o).2)) := by
  induction os with
  | nil => rfl
  | cons o rest ih =>
    rw [read_state, ih, List.map_cons, List.filterMap_cons]
    rcases h : (read_state_one cbs o).2 with _ | ev <;> simp [h]

theorem goodBody_getD (b : CallbackBody) (h : goodBody b = true) :
    b.status.getD FAILED ∈ TERMINAL_STATUSES := by
  unfold goodBody at h
  rcases hb : b.status with _ | st
  · simp [TERMINAL_STATUSES, FAILED]
  · rw [hb] at h
    simpa using h

theorem cascadeUpd_order_num (r : OrderRec) :
    (cascadeUpd r).order_num = r.order_num := rfl

theorem dispatchUpd_order_num (r : OrderRec) :
    (dispatchUpd r).order_num = r.order_num := rfl

theorem cascadeUpd_idem (r : OrderRec) :
    cascadeUpd (cascadeUpd r) = cascadeUpd r := rfl

theorem dispatchUpd_idem (r : OrderRec) :
    dispatchUpd (dispatchUpd r) = dispatchUpd r := rfl

theorem cascade_foldl (t : String) (fds : List OrderRec) (s : SysState) :
    fds.foldl (cascadeOne t) s
    = { s with
        orders := s.orders.map (fun r =>
          if r.order_num ∈ fds.map (fun o => o.order_num) then cascadeUpd r else r),
        events := s.events ++ fds.map (depFailedEvent t) } := by
  induction fds generalizing s with
  | nil => simp
  | cons fd rest ih =>
    rw [List.foldl_cons, ih]
    simp only [cascadeOne, updateByNum, List.map_map, List.map_cons,
      List.append_assoc, List.singleton_append]
    congr 1
    apply List.map_congr_left
    intro r _
    simp only [Function.comp_apply]
    by_cases h1 : r.order_num = fd.order_num
    · have hm : r.order_num ∈ fd.order_num :: rest.map (fun o => o.order_num) := by
        rw [h1]
        exact List.mem_cons_self ..
      rw [if_pos h1, if_pos hm, cascadeUpd_order_num]
      by_cases h2 : r.order_num ∈ rest.map (fun o => o.order_num)
      · rw [if_pos h2, cascadeUpd_idem]
      · rw [if_neg h2]
    · rw [if_neg h1]
      by_cases h2 : r.order_num ∈ rest.map (fun o => o.order_num)
      · rw [if_pos h2, if_pos (List.mem_cons_of_mem _ h2)]
      · rw [if_neg h2, if_neg (by simp [List.mem_cons, h1, h2])]

theorem dispatch_foldl (now : Nat) (t : String) (rds : List OrderRec) (s : SysState) :
    rds.foldl (dispatchOne now t) s
    = { s with
        orders := s.orders.map (fun r =>
          if r.order_num ∈ rds.map (fun o => o.order_num) then dispatchUpd r else r),
        events := s.events ++ rds.map (dispatchedEvent t),
        watchdogs := s.watchdogs ++ rds.map
          (fun o => { order_num := o.order_num, timeout := o.timeout,
                      start_time := now }) } := by
  induction rds generalizing s with
  | nil => simp
  | cons rd rest ih =>
    rw [List.foldl_cons, ih]
    simp only [dispatchOne, updateByNum, List.map_map, List.map_cons,
      List.append_assoc, List.singleton_append]
    congr 1
    apply List.map_congr_left
    intro r _
    simp only [Function.comp_apply]
    by_cases h1 : r.order_num = rd.order_num
    · have hm : r.order_num ∈ rd.order_num :: rest.map (fun o => o.order_num) := by
        rw [h1]
        exact List.mem_cons_self ..
      rw [if_pos h1, if_pos hm, dispatchUpd_order_num]
      by_cases h2 : r.order_num ∈ rest.map (fun o => o.order_num)
      · rw [if_pos h2, dispatchUpd_idem]
      · rw [if_neg h2]
    · rw [if_neg h1]
      by_cases h2 : r.order_num ∈ rest.map (fun o => o.order_num)
      · rw [if_pos h2, if_pos (List.mem_cons_of_mem _ h2)]
      · rw [if_neg h2, if_neg (by simp [List.mem_cons, h1, h2])]

theorem check_and_finalize_orders (t : String) (s : SysState) :
    (check_and_finalize t s).orders = s.orders := by
  unfold check_and_finalize
  by_cases h : s.orders.all (fun o => decide (o.status ∈ TERMINAL_STATUSES)) <;> simp [h]

theorem check_and_finalize_callbacks (t : String) (s : SysState) :
    (check_and_finalize t s).callbacks = s.callbacks := by
  unfold check_and_finalize
  by_cases h : s.orders.all (fun o => decide (o.status ∈ TERMINAL_STATUSES)) <;> simp [h]

/-- The records after the read-state pass. -/
def ordersAfterRead (s : SysState) : List OrderRec :=
  s.orders.map (fun o => (read_state_one s.callbacks o).1)

/-- Order numbers classified cascade-failed by the evaluator on the
post-read records. -/
def fdNums (s : SysState) : List String :=
  ((evaluate_orders (ordersAfterRead s)).2.1).map (fun o => o.order_num)

/-- Order numbers classified ready by the evaluator on the post-read
records. -/
def rdNums (s : SysState) : List String :=
  ((evaluate_orders (ordersAfterRead s)).1).map (fun o => o.order_num)

/-- The per-record effect of one controller pass: read-state update, then
cascade, then dispatch, each keyed by order number. -/
def ctrlUpd (cbs : SMap CallbackBody) (fdN rdN : List String) (r : OrderRec) :
    OrderRec :=
  let r1 := (read_state_one cbs r).1
  let r2 := if r1.order_num ∈ fdN then cascadeUpd r1 else r1
  if r2.order_num ∈ rdN then dispatchUpd r2 else r2

theorem ctrlUpd_order_num (cbs : SMap CallbackBody) (fdN rdN : List String)
    (r : OrderRec) : (ctrlUpd cbs fdN rdN r).order_num = r.order_num := by
  simp only [ctrlUpd]
  by_cases h1 : (read_state_one cbs r).1.order_num ∈ fdN
  · rw [if_pos h1]
    by_cases h2 : (cascadeUpd (read_state_one cbs r).1).order_num ∈ rdN
    · rw [if_pos h2, dispatchUpd_order_num, cascadeUpd_order_num,
        read_state_one_fst_order_num]
    · rw [if_neg h2, cascadeUpd_order_num, read_state_one_fst_order_num]
  · rw [if_neg h1]
    by_cases h2 : ((read_state_one cbs r).1).order_num ∈ rdN
    · rw [if_pos h2, dispatchUpd_order_num, read_state_one_fst_order_num]
    · rw [if_neg h2, read_state_one_fst_order_num]

theorem execute_orders_orders (now : Nat) (s : SysState)
    (h : ordersAfterRead s ≠ []) :
    (execute_orders now s).orders
    = s.orders.map (ctrlUpd s.callbacks (fdNums s) (rdNums s)) := by
  unfold execute_orders
  rw [read_state_eq]
  simp only
  rw [if_neg (by simpa [ordersAfterRead] using h)]
  rw [cascade_foldl, dispatch_foldl, check_and_finalize_orders]
  simp only [List.map_map]
  apply List.map_congr_left
  intro r _
  simp only [Function.comp_apply, ctrlUpd, fdNums, rdNums, ordersAfterRead]

theorem execute_orders_callbacks (now : Nat) (s : SysState) :
    (execute_orders now s).callbacks = s.callbacks := by
  unfold execute_orders
  rw [read_state_eq]
  simp only
  by_cases h : s.orders.map (fun o => (read_state_one s.callbacks o).1) = []
  · rw [if_pos h]
  · rw [if_neg h]
    rw [cascade_foldl, dispatch_foldl, check_and_finalize_callbacks]

theorem controller_callbacks (now : Nat) (oid : String) (s : SysState) :
    (controller now oid s).callbacks = s.callbacks := by
  unfold controller
  by_cases h : (acquire_lock s.lock "run" oid now 3600 "" "").1
  · rw [if_pos h, execute_orders_callbacks]
  · rw [if_neg h]

theorem controller_orders (now : Nat) (oid : String) (s : SysState) :
    (controller now oid s).orders = s.orders
    ∨ (controller now oid s).orders
        = s.orders.map (ctrlUpd s.callbacks (fdNums s) (rdNums s)) := by
  unfold controller
  by_cases hacq : (acquire_lock s.lock "run" oid now 3600 "" "").1
  · rw [if_pos hacq]
    set s' : SysState := { s with lock := (acquire_lock s.lock "run" oid now 3600 "" "").2 }
      with hs'
    have har : ordersAfterRead s' = ordersAfterRead s := rfl
    by_cases hempty : ordersAfterRead s' = []
    · left
      have hso : s.orders = [] := by
        have := hempty
        rw [har] at this
        unfold ordersAfterRead at this
        exact List.map_eq_nil_iff.mp this
      unfold execute_orders
      rw [read_state_eq]
      simp only
      rw [if_pos (by simpa [ordersAfterRead] using hempty)]
      simp [hso]
    · right
      rw [execute_orders_orders now s' hempty]
      rfl
  · rw [if_neg hacq]
    exact Or.inl rfl

theorem mem_evaluate_casc (orders : List OrderRec) (o : OrderRec)
    (h : o ∈ (evaluate_orders orders).2.1) :
    o ∈ orders ∧ o.status = QUEUED
      ∧ codeClassify (statusByQueueId orders) o = .cascade_failed := by
  rw [evaluate_orders_eq] at h
  simp only at h
  rcases List.mem_filter.mp h with ⟨hmem, hcl⟩
  unfold isClass at hcl
  rw [Bool.and_eq_true, decide_eq_true_eq, decide_eq_true_eq] at hcl
  exact ⟨hmem, hcl.1, hcl.2⟩

theorem mem_evaluate_ready (orders : List OrderRec) (o : OrderRec)
    (h : o ∈ (evaluate_orders orders).1) :
    o ∈ orders ∧ o.status = QUEUED
      ∧ codeClassify (statusByQueueId orders) o = .ready := by
  rw [evaluate_orders_eq] at h
  simp only at h
  rcases List.mem_filter.mp h with ⟨hmem, hcl⟩
  unfold isClass at hcl
  rw [Bool.and_eq_true, decide_eq_true_eq, decide_eq_true_eq] at hcl
  exact ⟨hmem, hcl.1, hcl.2⟩

theorem ordersAfterRead_nums (s : SysState) :
    (ordersAfterRead s).map (fun o => o.order_num)
    = s.orders.map (fun o => o.order_num) := by
  unfold ordersAfterRead
  rw [List.map_map]
  apply List.map_congr_left
  intro o _
  exact read_state_one_fst_order_num s.callbacks o

theorem ctrlUpd_statusStep (s : SysState)
    (hnodup : (s.orders.map (fun o => o.order_num)).Nodup)
    (hgood : goodCallbacks s) (r : OrderRec) (hr : r ∈ s.orders) :
    StatusStep r (ctrlUpd s.callbacks (fdNums s) (rdNums s) r) := by
  have hnd1 : ((ordersAfterRead s).map (fun o => o.order_num)).Nodup := by
    rw [ordersAfterRead_nums]; exact hnodup
  have hinj := List.inj_on_of_nodup_map hnd1
  have hr1mem : (read_state_one s.callbacks r).1 ∈ ordersAfterRead s :=
    List.mem_map_of_mem _ hr
  have hterm : (read_state_one s.callbacks r).1 = r
      ∨ (r.status = RUNNING
          ∧ (read_state_one s.callbacks r).1.status ∈ TERMINAL_STATUSES
          ∧ (read_state_one s.callbacks r).1.failure_reason = r.failure_reason) := by
    rcases read_state_one_spec s.callbacks r with h | ⟨hrun, b, hcb, hst, hfr⟩
    · exact Or.inl h
    · refine Or.inr ⟨hrun, ?_, hfr⟩
      have hg : goodBody b = true :=
        hgood r.order_num (List.mem_map_of_mem _ hr) b hcb
      rw [hst]
      exact goodBody_getD b hg
  have hqcase : (read_state_one s.callbacks r).1.status = QUEUED →
      (read_state_one s.callbacks r).1 = r := by
    intro hq
    rcases hterm with h | ⟨_, ht, _⟩
    · exact h
    · rw [hq] at ht
      exact absurd ht (by decide)
  by_cases hfd : (read_state_one s.callbacks r).1.order_num ∈ fdNums s
  · rcases List.mem_map.mp hfd with ⟨fd, hfdmem, hfdnum⟩
    obtain ⟨hfdmem1, hfdq, hfdcl⟩ := mem_evaluate_casc (ordersAfterRead s) fd hfdmem
    have hfdeq : fd = (read_state_one s.callbacks r).1 := hinj hfdmem1 hr1mem hfdnum
    have hq : (read_state_one s.callbacks r).1.status = QUEUED := by
      rw [← hfdeq]; exact hfdq
    have hr1r : (read_state_one s.callbacks r).1 = r := hqcase hq
    have hrd : (cascadeUpd (read_state_one s.callbacks r).1).order_num ∉ rdNums s := by
      rw [cascadeUpd_order_num]
      intro hin
      rcases List.mem_map.mp hin with ⟨rd, hrdmem, hrdnum⟩
      obtain ⟨hrdmem1, _, hrdcl⟩ := mem_evaluate_ready (ordersAfterRead s) rd hrdmem
      have heq : rd = (read_state_one s.callbacks r).1 := hinj hrdmem1 hr1mem hrdnum
      rw [heq] at hrdcl
      rw [hfdeq] at hfdcl
      rw [hrdcl] at hfdcl
      exact DagClass.noConfusion hfdcl
    simp only [ctrlUpd]
    rw [if_pos hfd, if_neg hrd, hr1r]
    exact Or.inr (Or.inr (Or.inr ⟨by rw [← hr1r]; exact hq, rfl, rfl⟩))
  · by_cases hrd : (read_state_one s.callbacks r).1.order_num ∈ rdNums s
    · rcases List.mem_map.mp hrd with ⟨rd, hrdmem, hrdnum⟩
      obtain ⟨hrdmem1, hrdq, _⟩ := mem_evaluate_ready (ordersAfterRead s) rd hrdmem
      have hrdeq : rd = (read_state_one s.callbacks r).1 := hinj hrdmem1 hr1mem hrdnum
      have hq : (read_state_one s.callbacks r).1.status = QUEUED := by
        rw [← hrdeq]; exact hrdq
      have hr1r : (read_state_one s.callbacks r).1 = r := hqcase hq
      simp only [ctrlUpd]
      rw [if_neg hfd, if_pos hrd, hr1r]
      exact Or.inr (Or.inl ⟨by rw [← hr1r]; exact hq, rfl⟩)
    · simp only [ctrlUpd]
      rw [if_neg hfd, if_neg hrd]
      rcases hterm with h | ⟨hrun, ht, _⟩
      · rw [h]
        exact Or.inl rfl
      · exact Or.inr (Or.inr (Or.inl ⟨hrun, ht⟩))

theorem forall₂_map_self {α : Type} {R : α → α → Prop} (l : List α) (f : α → α)
    (h : ∀ x ∈ l, R x (f x)) : List.Forall₂ R l (l.map f) := by
  induction l with
  | nil => exact List.Forall₂.nil
  | cons x rest ih =>
    exact List.Forall₂.cons (h x (List.mem_cons_self ..))
      (ih (fun y hy => h y (List.mem_cons_of_mem _ hy)))

theorem watchdog_tick_orders (num : String) (now : Nat) (s : SysState) :
    (watchdog_tick num now s).orders = s.orders := by
  unfold watchdog_tick
  rcases hf : s.watchdogs.find? (fun w => w.order_num == num) with _ | w
  · simp only [hf]
  · simp only [hf]
    rcases hw : (watchdog_handler (s.callbacks w.order_num).isSome now
        w.start_time w.timeout).written with _ | b <;> simp only [hw]

theorem watchdog_written_eq (e : Bool) (now st tmo : Nat) (b : CallbackBody)
    (h : (watchdog_handler e now st tmo).written = some b) : b = watchdogBody := by
  unfold watchdog_handler at h
  rcases e with _ | _
  · by_cases ht : now > st + tmo
    · rw [if_neg (by simp), if_pos ht] at h
      simpa using h.symm
    · rw [if_neg (by simp), if_neg ht] at h
      exact Option.noConfusion h
  · rw [if_pos rfl] at h
    exact Option.noConfusion h

theorem step_statusStep (s : SysState) (a : Action) (hInv : Inv s) :
    List.Forall₂ StatusStep s.orders (step s a).orders := by
  have hrefl : List.Forall₂ StatusStep s.orders s.orders :=
    List.forall₂_same.mpr (fun x _ => Or.inl rfl)
  cases a with
  | controller now oid =>
    rcases controller_orders now oid s with h | h
    · rw [step, h]
      exact hrefl
    · rw [step, h]
      exact forall₂_map_self s.orders _
        (fun r hr => ctrlUpd_statusStep s hInv.1 hInv.2 r hr)
  | workerWrite num body => exact hrefl
  | watchdogTick num now =>
    rw [step, watchdog_tick_orders]
    exact hrefl

theorem step_nums (s : SysState) (a : Action) :
    (step s a).orders.map (fun o => o.order_num)
    = s.orders.map (fun o => o.order_num) := by
  cases a with
  | controller now oid =>
    rcases controller_orders now oid s with h | h
    · rw [step, h]
    · rw [step, h, List.map_map]
      apply List.map_congr_left
      intro r _
      exact ctrlUpd_order_num s.callbacks (fdNums s) (rdNums s) r
  | workerWrite num body => rfl
  | watchdogTick num now => rw [step, watchdog_tick_orders]

theorem goodBody_watchdog : goodBody watchdogBody = true := by decide

theorem step_inv (s : SysState) (a : Action) (hInv : Inv s) (hg : goodAction a) :
    Inv (step s a) := by
  refine ⟨by rw [step_nums]; exact hInv.1, ?_⟩
  intro num hmem b hb
  rw [step_nums] at hmem
  cases a with
  | controller now oid =>
    rw [step, controller_callbacks] at hb
    exact hInv.2 num hmem b hb
  | workerWrite n body =>
    rw [step] at hb
    unfold worker_write SMap.insert at hb
    simp only at hb
    by_cases hn : num = n
    · rw [if_pos hn] at hb
      injection hb with hbb
      rw [← hbb]
      exact hg
    · rw [if_neg hn] at hb
      exact hInv.2 num hmem b hb
  | watchdogTick n now =>
    rw [step] at hb
    unfold watchdog_tick at hb
    rcases hf : s.watchdogs.find? (fun w => w.order_num == n) with _ | w
    · simp only [hf] at hb
      exact hInv.2 num hmem b hb
    · simp only [hf] at hb
      rcases hw : (watchdog_handler (s.callbacks w.order_num).isSome now
          w.start_time w.timeout).written with _ | body
      · simp only [hw] at hb
        exact hInv.2 num hmem b hb
      · simp only [hw] at hb
        simp only [SMap.insert] at hb
        by_cases hn : num = w.order_num
        · rw [if_pos hn] at hb
          injection hb with hbb
          rw [← hbb, watchdog_written_eq _ now w.start_time w.timeout body hw]
          exact goodBody_watchdog
        · rw [if_neg hn] at hb
          exact hInv.2 num hmem b hb

theorem execTrace_inv (acts : List Action) :
    ∀ s : SysState, Inv s → (∀ a ∈ acts, goodAction a) →
      Inv (execTrace s acts) := by
  induction acts with
  | nil => intro s h _; exact h
  | cons a rest ih =>
    intro s h hg
    rw [execTrace, List.foldl_cons]
    exact ih (step s a) (step_inv s a h (hg a (List.mem_cons_self ..)))
      (fun x hx => hg x (List.mem_cons_of_mem _ hx))

theorem countP_zero_of_types (L : List Event) (ty : String)
    (h : ∀ ev ∈ L, ev.event_type = ty) (p : String) (hne : (ty == p) = false) :
    L.countP (fun e => e.event_type == p) = 0 := by
  rw [List.countP_eq_zero]
  intro ev hev
  rw [h ev hev, hne]
  exact Bool.false_ne_true

theorem read_state_events_completed (cbs : SMap CallbackBody) (os : List OrderRec) :
    ∀ ev ∈ os.filterMap (fun o => (read_state_one cbs o).2),
      ev.event_type = "completed" := by
  intro ev hev
  rcases List.mem_filterMap.mp hev with ⟨o, _, ho⟩
  exact read_state_one_snd cbs o ev ho

theorem map_events_type (os : List OrderRec) (f : OrderRec → Event) (ty : String)
    (hf : ∀ o, (f o).event_type = ty) :
    ∀ ev ∈ os.map f, ev.event_type = ty := by
  intro ev hev
  rcases List.mem_map.mp hev with ⟨o, _, ho⟩
  rw [← ho]
  exact hf o

theorem countP_comp_zero {α : Type} (l : List α) (f : α → Event) (ty : String)
    (hf : ∀ x, (f x).event_type = ty) (p : String) (hne : (ty == p) = false) :
    l.countP ((fun e => e.event_type == p) ∘ f) = 0 := by
  rw [List.countP_eq_zero]
  intro a _
  simp only [Function.comp_apply, hf a, hne]
  exact Bool.false_ne_true

theorem controller_counts (now : Nat) (oid : String) (s : SysState) :
    ∃ k, (controller now oid s).doneWrites = s.doneWrites + k
      ∧ countJC (controller now oid s) = countJC s + k
      ∧ countJS (controller now oid s) = countJS s := by
  unfold controller
  by_cases hacq : (acquire_lock s.lock "run" oid now 3600 "" "").1
  · rw [if_pos hacq]
    unfold execute_orders
    rw [read_state_eq]
    simp only
    have hcmp := read_state_events_completed s.callbacks s.orders
    have hc0 : (s.orders.filterMap (fun o => (read_state_one s.callbacks o).2)).countP
        (fun e => e.event_type == "job_completed") = 0 :=
      countP_zero_of_types _ "completed" hcmp _ (by decide)
    have hs0 : (s.orders.filterMap (fun o => (read_state_one s.callbacks o).2)).countP
        (fun e => e.event_type == "job_started") = 0 :=
      countP_zero_of_types _ "completed" hcmp _ (by decide)
    by_cases hemp : s.orders.map (fun o => (read_state_one s.callbacks o).1) = []
    · rw [if_pos hemp]
      refine ⟨0, by simp, ?_, ?_⟩
      · simp [countJC, List.countP_append, hc0]
      · simp [countJS, List.countP_append, hs0]
    · rw [if_neg hemp]
      rw [cascade_foldl, dispatch_foldl]
      unfold check_and_finalize
      simp only
      have hdep_jc : ∀ (t : String) (l : List OrderRec),
          l.countP ((fun e => e.event_type == "job_completed") ∘ depFailedEvent t) = 0 :=
        fun t l => countP_comp_zero l (depFailedEvent t) "dependency_failed"
          (fun _ => rfl) _ (by decide)
      have hdep_js : ∀ (t : String) (l : List OrderRec),
          l.countP ((fun e => e.event_type == "job_started") ∘ depFailedEvent t) = 0 :=
        fun t l => countP_comp_zero l (depFailedEvent t) "dependency_failed"
          (fun _ => rfl) _ (by decide)
      have hdsp_jc : ∀ (t : String) (l : List OrderRec),
          l.countP ((fun e => e.event_type == "job_completed") ∘ dispatchedEvent t) = 0 :=
        fun t l => countP_comp_zero l (dispatchedEvent t) "dispatched"
          (fun _ => rfl) _ (by decide)
      have hdsp_js : ∀ (t : String) (l : List OrderRec),
          l.countP ((fun e => e.event_type == "job_started") ∘ dispatchedEvent t) = 0 :=
        fun t l => countP_comp_zero l (dispatchedEvent t) "dispatched"
          (fun _ => rfl) _ (by decide)
      by_cases hall : ((s.orders.map (fun o => (read_state_one s.callbacks o).1)).map
          (fun r => if r.order_num
            ∈ ((evaluate_orders (s.orders.map (fun o =>
                (read_state_one s.callbacks o).1))).2.1).map (fun o => o.order_num)
            then cascadeUpd r else r)).map
          (fun r => if r.order_num
            ∈ ((evaluate_orders (s.orders.map (fun o =>
                (read_state_one s.callbacks o).1))).1).map (fun o => o.order_num)
            then dispatchUpd r else r)
          |>.all (fun o => decide (o.status ∈ TERMINAL_STATUSES))
      · rw [if_pos hall]
        refine ⟨1, by simp, ?_, ?_⟩
        · simp [countJC, List.countP_append, hc0, hdep_jc, hdsp_jc,
            List.countP_cons, jobCompletedEvent]
        · simp [countJS, List.countP_append, hs0, hdep_js, hdsp_js,
            List.countP_cons, jobCompletedEvent]
      · rw [if_neg hall]
        refine ⟨0, by simp, ?_, ?_⟩
        · simp [countJC, List.countP_append, hc0, hdep_jc, hdsp_jc]
        · simp [countJS, List.countP_append, hs0, hdep_js, hdsp_js]
  · rw [if_neg hacq]
    exact ⟨0, by simp, by simp, rfl⟩

theorem watchdog_tick_events (num : String) (now : Nat) (s : SysState) :
    (watchdog_tick num now s).events = s.events
    ∧ (watchdog_tick num now s).doneWrites = s.doneWrites := by
  unfold watchdog_tick
  rcases hf : s.watchdogs.find? (fun w => w.order_num == num) with _ | w
  · simp [hf]
  · rcases hw : (watchdog_handler (s.callbacks w.order_num).isSome now
        w.start_time w.timeout).written with _ | b <;> simp [hf, hw]

theorem step_counts (s : SysState) (a : Action) :
    ∃ k, (step s a).doneWrites = s.doneWrites + k
      ∧ countJC (step s a) = countJC s + k
      ∧ countJS (step s a) = countJS s := by
  cases a with
  | controller now oid => exact controller_counts now oid s
  | workerWrite num body =>
    exact ⟨0, by simp [step, worker_write],
      by simp [countJC, step, worker_write], rfl⟩
  | watchdogTick num now =>
    refine ⟨0, ?_, ?_, ?_⟩
    · rw [step, (watchdog_tick_events num now s).2]
      simp
    · unfold countJC
      rw [step, (watchdog_tick_events num now s).1]
      simp
    · unfold countJS
      rw [step, (watchdog_tick_events num now s).1]

theorem execTrace_counts (acts : List Action) :
    ∀ s : SysState, (s.doneWrites = countJC s →
        (execTrace s acts).doneWrites = countJC (execTrace s acts))
      ∧ countJS (execTrace s acts) = countJS s := by
  induction acts with
  | nil => intro s; exact ⟨fun h => h, rfl⟩
  | cons a rest ih =>
    intro s
    have hstep : execTrace s (a :: rest) = execTrace (step s a) rest := rfl
    rw [hstep]
    rcases step_counts s a with ⟨k, hd, hc, hs⟩
    refine ⟨fun h => ?_, ?_⟩
    · exact (ih (step s a)).1 (by rw [hd, hc, h])
    · rw [(ih (step s a)).2, hs]

/-- **C2.** In any run whose callback writers conform to the callback
interface (terminal or absent status field), the status stored on each
order record moves only along queued → running → {succeeded, failed,
timed_out}, plus queued → failed with `failure_reason =
"dependency_failed"` for a dependency cascade; and the status `read_state`
writes when the controller observes a callback for a running order is
always one of the three terminal statuses. -/
theorem C2_status_transitions (s0 : SysState) (acts : List Action) (a : Action)
    (h0 : Inv s0) (hg : ∀ x ∈ a :: acts, goodAction x) :
    List.Forall₂ StatusStep (execTrace s0 acts).orders
      (step (execTrace s0 acts) a).orders
    ∧ (∀ o ∈ (execTrace s0 acts).orders, o.status = RUNNING →
        ∀ b, (execTrace s0 acts).callbacks o.order_num = some b →
          (read_state_one (execTrace s0 acts).callbacks o).1.status
            ∈ TERMINAL_STATUSES) := by
  have hinv : Inv (execTrace s0 acts) :=
    execTrace_inv acts s0 h0 (fun x hx => hg x (List.mem_cons_of_mem _ hx))
  refine ⟨step_statusStep _ a hinv, ?_⟩
  intro o ho hrun b hb
  have hne : ¬ (o.status ≠ RUNNING) := by simp [hrun]
  have hst : (read_state_one (execTrace s0 acts).callbacks o).1.status
      = b.status.getD FAILED := by
    unfold read_state_one
    rw [if_neg hne]
    simp only [hb]
  rw [hst]
  exact goodBody_getD b (hinv.2 o.order_num (List.mem_map_of_mem _ ho) b hb)

/-- A freshly seeded single-order run. -/
def c2State : SysState := initState [mkOrd "0001" QUEUED [] true] "t"

theorem C2_witness :
    List.Forall₂ StatusStep (execTrace c2State []).orders
      (step (execTrace c2State []) (.controller 10 "w1")).orders
    ∧ (∀ o ∈ (execTrace c2State []).orders, o.status = RUNNING →
        ∀ b, (execTrace c2State []).callbacks o.order_num = some b →
          (read_state_one (execTrace c2State []).callbacks o).1.status
            ∈ TERMINAL_STATUSES) :=
  C2_status_transitions c2State [] (.controller 10 "w1")
    ⟨by decide, by
      intro num hmem b hb
      simp only [c2State, initState, mkOrd, List.map_cons, List.map_nil,
        List.mem_singleton] at hmem
      subst hmem
      simp [c2State, initState, SMap.insert, SMap.empty] at hb⟩
    (by
      intro x hx
      simp only [List.mem_singleton] at hx
      subst hx
      trivial)

/-- The single order of the C5 counterexample run. -/
def c5Run : List OrderRec := [mkOrd "0001" QUEUED [] true]

/-- Dispatch; watchdog certifies a timeout (one callback creation →
controller finalizes); the slow worker then PUTs its own, terminal,
callback (a second creation → controller re-acquires the completed lock and
finalizes again). -/
def c5Acts : List Action :=
  [.controller 10 "a", .watchdogTick "0001" 1000, .controller 1001 "b",
   .workerWrite "0001" { status := some SUCCEEDED, log := some "done" },
   .controller 1002 "c"]

/-- **C5 counterexample.** A trace made of spec-conformant writes (the
worker reports a terminal status) in which two `job_completed` events are
written for one run: the claim's "at most one job_completed event is ever
written" fails on the code. -/
theorem C5_counterexample :
    (∀ x ∈ c5Acts, goodAction x)
    ∧ countJS (execTrace (initState c5Run "t") c5Acts) = 1
    ∧ countJC (execTrace (initState c5Run "t") c5Acts) = 2 := by
  refine ⟨?_, by decide, by decide⟩
  intro x hx
  simp only [c5Acts, List.mem_cons, List.not_mem_nil, or_false] at hx
  rcases hx with rfl | rfl | rfl | rfl | rfl
  · trivial
  · trivial
  · trivial
  · show goodBody { status := some SUCCEEDED, log := some "done" } = true
    decide
  · trivial

/-- **C5 (amended).** For every run seeded by the initiator, along every
trace: exactly one `job_started` event exists, and the number of done
artifact writes equals the number of `job_completed` events — the two are
written together by `check_and_finalize`, so the done artifact exists iff a
`job_completed` event exists.  "At most one job_completed is ever written"
does not hold: a controller trigger arriving after finalization re-acquires
the completed lock and finalizes again (see the counterexample). -/
theorem C5_job_events (orders : List OrderRec) (tr : String)
    (acts : List Action) :
    countJS (execTrace (initState orders tr) acts) = 1
    ∧ (execTrace (initState orders tr) acts).doneWrites
        = countJC (execTrace (initState orders tr) acts) := by
  constructor
  · rw [(execTrace_counts acts (initState orders tr)).2]
    simp [countJS, initState, jobStartedEvent, List.countP_cons]
  · exact (execTrace_counts acts (initState orders tr)).1
      (by simp [countJC, initState, jobStartedEvent, List.countP_cons])

end AwsExe
